import Mathlib

/-!
# WaterTracker: statistics, calendar aggregation, the access gate and the ledger

A shallow embedding of the parts of the WaterTracker repository that the
statistics, aggregation, authentication and logging properties talk about:

* `routes/water.js`   — the handlers of `POST /`, `GET /date/:date`, `GET /stats`,
  `GET /range`, `POST /admin`, `GET /admin/:userId/date/:date`, `PUT /admin/:id`,
  `DELETE /admin/:id`;
* `routes/auth.js`    — the handlers of `POST /register` and `POST /login`;
* `routes/users.js`   — the handler of `PUT /me` and the inline role check;
* `middleware/auth.js`, `middleware/admin.js` — the two gates;
* `models/WaterIntake.js` — the `beforeSave` hook and the amount validator;
* `client/.../Calendar.js`, `client/.../Dashboard.js`, `client/.../AdminPanel.js` — the
  client-side sums and the record form.

JavaScript numbers that hold integers (amounts, SQL sums, lengths) are `Int`/`Nat`;
`null`/`undefined` is `Option.none`; a thrown error is `Except.error`.
-/

namespace WaterTracker

/-! ## GET /stats: the computation over the grouped query result (water.js 114-125) -/

/-- One row of the grouped query of `GET /stats` (water.js 99-112): a date and the
`SUM(amount)` over the records of that date. -/
structure DayTotal where
  date : String
  total : Int
  deriving DecidableEq

/-- The accumulator and result of the best-day reduce; the initial value is
`{ date: null, total: 0 }` (water.js 125). -/
structure BestDay where
  date : Option String
  total : Int
  deriving DecidableEq

/-- `parseInt(x, 10)` where `x` is an integer-valued number (an SQL `SUM` over an INTEGER
column, or the `amount` of a record): the number is printed in decimal and read back,
which yields the same integer. -/
def parseInt (x : Int) : Int := x

/-- `a || b` on non-negative integer numbers: `0` is falsy, every other value is truthy. -/
def jsOr (a b : Nat) : Nat := if a = 0 then b else a

/-- `dailyTotals.reduce((sum, day) => sum + parseInt(day.getDataValue('total'), 10), 0)`
(water.js 115). -/
def monthlyTotal (dailyTotals : List DayTotal) : Int :=
  dailyTotals.foldl (fun sum day => sum + parseInt day.total) 0

/-- The divisor of the average, `dailyTotals.length || 1` (water.js 116). -/
def averageDivisor (dailyTotals : List DayTotal) : Nat :=
  jsOr dailyTotals.length 1

/-- `monthlyTotal / (dailyTotals.length || 1)` (water.js 116). The quotient is kept exact
as a rational; the source computes the same quotient in double precision. -/
def dailyAverage (dailyTotals : List DayTotal) : ℚ :=
  (monthlyTotal dailyTotals : ℚ) / (averageDivisor dailyTotals : ℚ)

/-- The callback of the best-day reduce (water.js 119-125): the current row replaces the
accumulator only when its total is strictly greater. -/
def bestDayStep (best : BestDay) (current : DayTotal) : BestDay :=
  let currentTotal := parseInt current.total
  if currentTotal > best.total then
    { date := some current.date, total := currentTotal }
  else best

/-- `dailyTotals.reduce(bestDayStep, { date: null, total: 0 })` (water.js 119-125). -/
def bestDay (dailyTotals : List DayTotal) : BestDay :=
  dailyTotals.foldl bestDayStep { date := none, total := 0 }

/-- The JSON object sent by `GET /stats` on success (water.js 127-132). -/
structure Stats where
  dailyTotals : List DayTotal
  monthlyTotal : Int
  dailyAverage : ℚ
  bestDay : BestDay
  deriving DecidableEq

/-- Lines 114-132 of water.js: the statistics object built from the grouped rows. -/
def computeStats (dailyTotals : List DayTotal) : Stats :=
  { dailyTotals := dailyTotals
    monthlyTotal := monthlyTotal dailyTotals
    dailyAverage := dailyAverage dailyTotals
    bestDay := bestDay dailyTotals }

/-! ## The store: users and intake records (models/User.js, models/WaterIntake.js) -/

/-- A row of the Users table (models/User.js). `password` is `none` on an instance loaded
with `attributes: { exclude: ['password'] }`. The bookkeeping columns `createdAt` and
`updatedAt` that the ORM maintains are left out. -/
structure User where
  id : Nat
  username : String
  email : String
  password : Option String
  firstName : String
  lastName : String
  middleName : Option String
  gender : String
  dailyWaterGoal : Int
  role : String
  deriving DecidableEq

/-- A row of the WaterIntakes table (models/WaterIntake.js); `UserId` is the foreign key
added by `WaterIntake.belongsTo(User)`. The bookkeeping columns `createdAt` and
`updatedAt` are left out. -/
structure IntakeRecord where
  id : Nat
  UserId : Nat
  amount : Int
  date : String
  time : String
  deriving DecidableEq

/-- The two tables of the relational store. -/
structure Db where
  users : List User
  intakes : List IntakeRecord
  deriving DecidableEq

/-- The store right after `sequelize.sync`: both tables empty. -/
def Db.empty : Db := { users := [], intakes := [] }

/-- A statement sent to the store by a middleware or a handler. -/
inductive StoreOp
  | userFindByPk (id : Nat)
  | intakeFindAll (userId : Nat)
  | intakeCreate (userId : Nat)
  | userFindOne (column : String) (value : String)
  | userCreate (username : String)
  | userUpdate (id : Nat)
  | intakeFindByPk (id : Option Nat)
  | intakeUpdate (id : Nat)
  | intakeDestroy (id : Nat)
  deriving DecidableEq

/-- The `error` member of the 500 responses of routes/auth.js in development mode: the
name of the error (`type`) and, for a validation error of the ORM, its items `err.errors`
as pairs of field and failed rule (`fields`; the `message` is made of the same items). -/
structure ErrorDetail where
  type : String
  fields : List (String × String)
  deriving DecidableEq

/-- The body of a JSON response. `validationFailed` is the 400 body of the registration
(`msg`, `errors`; the lists of received, required and missing field names are left out);
`serverFailure` is `{ msg, error }` where `error` is `undefined` outside development
mode; `token` is `{ token }`; `user` is a user instance, or `null`; `text` is a plain
text body sent by `res.send`. -/
inductive Body
  | msg (text : String)
  | serverError (text : String) (error : String)
  | validationErrors (fields : List String)
  | record (r : IntakeRecord)
  | records (rs : List IntakeRecord)
  | stats (s : Stats)
  | validationFailed (text : String) (errors : List String)
  | serverFailure (text : String) (error : Option ErrorDetail)
  | token (token : String)
  | user (u : Option User)
  | text (content : String)
  deriving DecidableEq

/-- What `res.status(code).json(body)` sends (`res.json(body)` sends status 200). -/
structure Response where
  status : Nat
  body : Body
  deriving DecidableEq

/-- A value of a JSON request body where the code accepts a number: `missing` is
`undefined` (the field is not sent); `int n` is a number with the integer value `n` that
`String` prints in plain decimal (magnitudes below 10^21; a number is a double, so `n` is
any integer up to 2^53 in magnitude or a larger one that a double can hold); `number text` is any other
number, given by the text `String(value)` prints for it (`"2.5"`, `"1e+21"`); `str s` is a
string. Arrays and objects are not modelled. -/
inductive JsonValue
  | missing
  | null
  | bool (b : Bool)
  | int (n : Int)
  | number (text : String)
  | str (s : String)
  deriving DecidableEq

/-- The fields of `req.body` that the routes or the properties mention. Text fields are
`none` when the field is not sent and `some s` when it is the string `s`. -/
structure RequestBody where
  username : Option String
  email : Option String
  password : Option String
  firstName : Option String
  lastName : Option String
  middleName : Option String
  gender : Option String
  dailyWaterGoal : JsonValue
  role : Option String
  id : Option Nat
  amount : JsonValue
  userId : Option Nat
  date : Option String
  time : Option String
  deriving DecidableEq

/-- The body `{}`. -/
def RequestBody.empty : RequestBody :=
  { username := none, email := none, password := none, firstName := none, lastName := none,
    middleName := none, gender := none, dailyWaterGoal := .missing, role := none,
    id := none, amount := .missing, userId := none, date := none, time := none }

/-- The parts of an Express request that the modelled code reads. Header names are
lower-case, as Node delivers them. `date`, `startDate`, `endDate`, `id` and `userId` are
the route parameters `req.params.date`, ...; a route that has no such parameter does not
read the field. `id` and `userId` are the numbers the store reads from the parameter,
`none` when the text is not a number (no row has such a key). -/
structure Request where
  headers : List (String × String)
  date : String
  startDate : String
  endDate : String
  id : Option Nat
  userId : Option Nat
  body : RequestBody

/-- The value of a string of decimal digits, read left to right. -/
def digitsValue (cs : List Char) : Nat :=
  cs.foldl (fun acc c => acc * 10 + (c.toNat - 48)) 0

/-- An optional leading sign `-` or `+`: whether the sign is `-`, and the characters
after the sign. -/
def splitSign (cs : List Char) : Bool × List Char :=
  match cs with
  | [] => (false, [])
  | c :: rest =>
    if c = '-' then (true, rest) else if c = '+' then (false, rest) else (false, c :: rest)

/-- The integer with the given sign and magnitude. -/
def signedValue (negative : Bool) (magnitude : Nat) : Int :=
  if negative then -(magnitude : Int) else (magnitude : Int)

/-- The integer written by a text that matches `/^[-+]?[0-9]+$/`, the pattern of
validator.js `isInt`; `none` when the text does not match. -/
def integerLiteral (text : String) : Option Int :=
  let signed := splitSign text.toList
  if signed.2 ≠ [] ∧ signed.2.all Char.isDigit then
    some (signedValue signed.1 (digitsValue signed.2))
  else none

/-- The number of low bits that a natural number `m` loses when it is written with the 53
significant bits of a double: the least `e` with `m / 2 ^ e < 2 ^ 53`. `fuel` bounds the
number of halvings; `m` itself is always enough. -/
def droppedBits (fuel m : Nat) : Nat :=
  match fuel with
  | 0 => 0
  | fuel + 1 => if m < 9007199254740992 then 0 else droppedBits fuel (m / 2) + 1

/-- The Number value of a natural number: JavaScript numbers are IEEE 754 doubles, so an
integer up to `2 ^ 53 = 9007199254740992` is itself and a larger one is rounded to 53
significant bits, to the nearest value and to the even one of two nearest values. A
magnitude that rounds beyond the largest double (about `1.8e308`) is `Infinity` in the
language; such magnitudes are outside the model, which has integer amounts only. -/
def numberValueNat (m : Nat) : Nat :=
  if m ≤ 9007199254740992 then m
  else
    let e := droppedBits m m
    let q := m / 2 ^ e
    let r := m % 2 ^ e
    let half := 2 ^ (e - 1)
    if half < r ∨ (r = half ∧ q % 2 = 1) then (q + 1) * 2 ^ e else q * 2 ^ e

/-- The Number value of an integer: the sign is kept and the magnitude rounded by
`numberValueNat`. -/
def numberValue (n : Int) : Int :=
  signedValue (decide (n < 0)) (numberValueNat n.natAbs)

/-- `parseInt(text, 10)` on a string: leading white space is skipped, an optional sign
and the longest run of digits are read, and the result is the Number value of the integer
that was read (`parseInt('9007199254740993', 10)` is `9007199254740992`); `none` is `NaN`
(no digit was read). -/
def parseIntText (text : String) : Option Int :=
  let signed := splitSign (text.toList.dropWhile Char.isWhitespace)
  let digits := signed.2.takeWhile Char.isDigit
  if digits = [] then none
  else some (signedValue signed.1 (numberValueNat (digitsValue digits)))

/-- The validator `isInt({ min })` of express-validator on a body value: the value is
turned into a string (`''` for `undefined` and `null`) and must match the integer pattern
and be at least `min`. -/
def isInt (min : Int) (value : JsonValue) : Bool :=
  match value with
  | .missing => false
  | .null => false
  | .bool _ => false
  | .int n => decide (min ≤ n)
  | .number text =>
    match integerLiteral text with
    | some n => decide (min ≤ n)
    | none => false
  | .str text =>
    match integerLiteral text with
    | some n => decide (min ≤ n)
    | none => false

/-- `parseInt(value, 10)` on a body value: the value is turned into a string and read by
`parseIntText`; `none` is `NaN`. -/
def parseIntJson (value : JsonValue) : Option Int :=
  match value with
  | .missing => none
  | .null => none
  | .bool _ => none
  | .int n => some (parseInt n)
  | .number text => parseIntText text
  | .str text => parseIntText text

/-- `req.header(name)`: the value of the header, `undefined` when it is not sent. -/
def Request.header (req : Request) (name : String) : Option String :=
  (req.headers.find? (fun h => h.1 == name)).map (fun h => h.2)

/-- The server clock read by `new Date()`: the calendar date stored in the DATEONLY column
and `now.toTimeString().slice(0, 8)`. -/
structure Clock where
  date : String
  time : String

/-! ## middleware/auth.js -/

/-- `decoded.user` of a verified token: the object signed at login or registration. -/
structure PayloadUser where
  id : Nat
  role : String
  deriving DecidableEq

/-- What `jwt.verify(token, secret)` does: it returns the decoded payload, whose `user`
member may be missing, or throws an error with one of the names the catch block tests. -/
inductive VerifyResult
  | decoded (user : Option PayloadUser)
  | tokenExpiredError
  | jsonWebTokenError
  | otherError
  deriving DecidableEq

/-- `User.findByPk(id)` on the Users table. -/
def findByPk (users : List User) (id : Nat) : Option User :=
  users.find? (fun u => u.id == id)

/-- The effect of `attributes: { exclude: ['password'] }` on a loaded user. -/
def excludePassword (u : User) : User := { u with password := none }

/-- How a middleware ends: it sends a response, or it sets `req.user` and calls `next()`. -/
inductive GateResult
  | respond (r : Response)
  | next (user : User)
  deriving DecidableEq

/-- `!token` for the value returned by `req.header`: `undefined` and the empty string
are falsy. -/
def tokenMissing (token : Option String) : Bool :=
  match token with
  | none => true
  | some t => t == ""

/-- The `auth` middleware (middleware/auth.js 4-39), with the statements it sent to the
store. `verify` is `jwt.verify` with the process secret. -/
def auth (verify : String → VerifyResult) (users : List User) (req : Request) :
    GateResult × List StoreOp :=
  let token := req.header "x-auth-token"
  if tokenMissing token then
    (.respond { status := 401, body := .msg "No token, authorization denied" }, [])
  else
    match verify (token.getD "") with
    | .tokenExpiredError =>
      (.respond { status := 401, body := .msg "Token has expired" }, [])
    | .jsonWebTokenError =>
      (.respond { status := 401, body := .msg "Invalid token" }, [])
    | .otherError =>
      (.respond { status := 401, body := .msg "Token is not valid" }, [])
    | .decoded none =>
      -- `decoded.user.id` throws a TypeError, which the catch block answers
      (.respond { status := 401, body := .msg "Token is not valid" }, [])
    | .decoded (some pu) =>
      match findByPk users pu.id with
      | none =>
        (.respond { status := 401, body := .msg "Token is not valid" }, [.userFindByPk pu.id])
      | some user => (.next (excludePassword user), [.userFindByPk pu.id])

/-- What a route handler returns: its response, the store it leaves and the statements
it sent. -/
structure HandlerResult where
  response : Response
  db : Db
  storeOps : List StoreOp

/-- What a whole route did with a request. -/
structure RouteOutcome where
  response : Response
  db : Db
  storeOps : List StoreOp
  handlerInvoked : Bool

/-- A route registered as `router.METHOD(path, auth, handler)`: Express runs `handler`
only when `auth` called `next()`. -/
def protectedRoute (verify : String → VerifyResult)
    (handler : User → Request → Db → HandlerResult) (req : Request) (db : Db) :
    RouteOutcome :=
  match auth verify db.users req with
  | (.respond r, ops) =>
    { response := r, db := db, storeOps := ops, handlerInvoked := false }
  | (.next user, ops) =>
    let h := handler user req db
    { response := h.response, db := h.db, storeOps := ops ++ h.storeOps,
      handlerInvoked := true }

/-! ## routes/water.js: POST /, GET /date/:date, GET /stats -/

/-- The id given by the autoincrement primary key: one more than the ids in the table. -/
def nextId (intakes : List IntakeRecord) : Nat :=
  (intakes.map (fun r => r.id)).foldr max 0 + 1

/-- The handler of `POST /` (water.js 13-38) for the authenticated `user`; `now` is the
value of `new Date()`. The validator is `isInt({ min: 1 })` on `amount` (water.js 14).
After it passed, `parseInt(amount, 10)` is a number; were it `NaN`, the INTEGER column
would refuse it and the catch block would answer 500. The handler sends its response
without calling `next()`, so the second `POST /` of the file (water.js 271-298) never
runs. -/
def postWaterHandler (now : Clock) (user : User) (req : Request) (db : Db) :
    HandlerResult :=
  if !isInt 1 req.body.amount then
    { response :=
        { status := 400,
          body := .validationErrors ["Amount is required and must be positive"] },
      db := db, storeOps := [] }
  else
    match parseIntJson req.body.amount with
    | none =>
      { response :=
          { status := 500, body := .serverError "Server error" "NaN is not a valid integer" },
        db := db, storeOps := [] }
    | some amount =>
      let record : IntakeRecord :=
        { id := nextId db.intakes, UserId := user.id,
          amount := amount, date := now.date, time := now.time }
      { response := { status := 200, body := .record record },
        db := { db with intakes := db.intakes ++ [record] },
        storeOps := [.intakeCreate user.id] }

/-- `dateRegex.test(s)` for `/^\d{4}-\d{2}-\d{2}$/` (water.js 67). -/
def dateRegexTest (s : String) : Bool :=
  match s.toList with
  | [y1, y2, y3, y4, h1, m1, m2, h2, d1, d2] =>
    y1.isDigit && y2.isDigit && y3.isDigit && y4.isDigit && h1 == '-' &&
      m1.isDigit && m2.isDigit && h2 == '-' && d1.isDigit && d2.isDigit
  | _ => false

/-- Whether `year` is a leap year of the Gregorian calendar. -/
def isLeapYear (year : Nat) : Bool :=
  (year % 4 == 0 && year % 100 != 0) || year % 400 == 0

/-- The number of days of the month with index `month` (0 for January, 11 for December)
in `year`. -/
def daysInMonth (year month : Nat) : Nat :=
  if month = 1 then (if isLeapYear year then 29 else 28) else 31 - (month % 7) % 2

/-- Whether a text of the shape `YYYY-MM-DD` names a day of the calendar: the month is
01 to 12 and the day is 01 to the number of days of that month. `2024-02-29` is one,
`2023-02-29` and `2024-13-45` are not. -/
def isCalendarDate (s : String) : Bool :=
  dateRegexTest s &&
    (let year := digitsValue (s.toList.take 4)
     let month := digitsValue ((s.toList.drop 5).take 2)
     let day := digitsValue (s.toList.drop 8)
     decide (1 ≤ month) && decide (month ≤ 12) && decide (1 ≤ day) &&
       decide (day ≤ daysInMonth year (month - 1)))

/-- What the ORM makes of a text of the shape `YYYY-MM-DD` given for the DATEONLY column
`date` (models/WaterIntake.js 18-21), as a value to store or as a bound of a query: the
value passes through `moment(value).format('YYYY-MM-DD')`, which reads a text of this
shape as an ISO 8601 date, prints a day of the calendar as it was written and prints the
text `Invalid date` for any other (`2024-13-45`, `2023-02-29`). -/
def calendarDateOrInvalid (s : String) : String :=
  if isCalendarDate s then s else "Invalid date"

/-- What the ORM makes of any text given for the DATEONLY column `date`. For a text that
has not the shape `YYYY-MM-DD`, `fallback` is the result of
`moment(text).format('YYYY-MM-DD')`: the library tries its other ISO 8601 and RFC 2822
forms and then the `Date` constructor of the host, so `2024-3-1` becomes `2024-03-01` and
`abc` becomes `Invalid date`. -/
def dateOnly (fallback : String → String) (s : String) : String :=
  if dateRegexTest s then calendarDateOrInvalid s else fallback s

/-- The query of `GET /date/:date` (water.js 72-79), the ledger operation
listForUserOnDate: the records of the user on the date, ordered by time ascending. -/
def listForUserOnDate (intakes : List IntakeRecord) (userId : Nat) (date : String) :
    List IntakeRecord :=
  (intakes.filter (fun r => r.UserId == userId && r.date == date)).insertionSort
    (fun a b => a.time ≤ b.time)

/-- The handler of `GET /date/:date` (water.js 62-87); `req.date` is `req.params.date`. -/
def getDateHandler (user : User) (req : Request) (db : Db) : HandlerResult :=
  if !dateRegexTest req.date then
    { response := { status := 400, body := .msg "Invalid date format. Use YYYY-MM-DD" },
      db := db, storeOps := [] }
  else
    { response :=
        { status := 200, body := .records (listForUserOnDate db.intakes user.id req.date) },
      db := db, storeOps := [.intakeFindAll user.id] }

/-- A JavaScript error thrown while a handler runs. -/
inductive JsError
  | referenceError (name : String)
  deriving DecidableEq

/-- The `message` of the error. -/
def JsError.message : JsError → String
  | .referenceError name => name ++ " is not defined"

/-- The identifiers bound at module level in routes/water.js (lines 1-8): `express`,
`router`, `auth`, `admin`, `check`, `validationResult`, `User`, `WaterIntake`, `Op`. -/
def waterModuleBindings : List String :=
  ["express", "router", "auth", "admin", "check", "validationResult", "User",
    "WaterIntake", "Op"]

/-- The identifiers visible inside the `GET /stats` handler: its parameters and locals
declared before the query, the module bindings and the globals of Node it uses. -/
def waterModuleScope : List String :=
  ["req", "res", "today", "thirtyDaysAgo"] ++ waterModuleBindings ++
    ["require", "module", "console", "process", "Date", "parseInt"]

/-- Evaluation of an identifier: a name that is not bound throws a ReferenceError. -/
def resolveIdentifier (scope : List String) (name : String) : Except JsError Unit :=
  if scope.contains name then .ok () else .error (.referenceError name)

/-- The rows of the grouped query of `GET /stats` (water.js 99-112): the records of the
user whose date is between the two bounds, grouped by date with `SUM(amount)`, ordered by
date descending. The bounds are the two `Date` objects as the store receives them. -/
def groupedDailyTotals (intakes : List IntakeRecord) (userId : Nat)
    (thirtyDaysAgo today : String) : List DayTotal :=
  let rows := intakes.filter
    (fun r => r.UserId == userId && decide (thirtyDaysAgo ≤ r.date) && decide (r.date ≤ today))
  let dates := ((rows.map (fun r => r.date)).dedup).insertionSort (fun a b => b ≤ a)
  dates.map (fun d =>
    { date := d, total := ((rows.filter (fun r => r.date == d)).map (fun r => r.amount)).sum })

/-- The handler of `GET /stats` (water.js 92-137), run with the identifiers in `scope`.
The argument of `findAll` is built first: it evaluates `sequelize.fn(...)`, so an unbound
`sequelize` throws before the query is sent, and the catch block answers 500 with
`err.message`. -/
def getStatsHandler (scope : List String) (thirtyDaysAgo today : String) (user : User)
    (_req : Request) (db : Db) : HandlerResult :=
  match resolveIdentifier scope "sequelize" with
  | .error err =>
    { response := { status := 500, body := .serverError "Server error" err.message },
      db := db, storeOps := [] }
  | .ok _ =>
    let dailyTotals := groupedDailyTotals db.intakes user.id thirtyDaysAgo today
    { response := { status := 200, body := .stats (computeStats dailyTotals) },
      db := db, storeOps := [.intakeFindAll user.id] }

/-- The route `POST /api/water` (water.js 13). -/
def postWaterRoute (verify : String → VerifyResult) (now : Clock) (req : Request)
    (db : Db) : RouteOutcome :=
  protectedRoute verify (postWaterHandler now) req db

/-- The route `GET /api/water/date/:date` (water.js 62). -/
def getDateRoute (verify : String → VerifyResult) (req : Request) (db : Db) :
    RouteOutcome :=
  protectedRoute verify getDateHandler req db

/-- The route `GET /api/water/stats` (water.js 92), in the scope of routes/water.js. -/
def getStatsRoute (verify : String → VerifyResult) (thirtyDaysAgo today : String)
    (req : Request) (db : Db) : RouteOutcome :=
  protectedRoute verify (getStatsHandler waterModuleScope thirtyDaysAgo today) req db

/-- The store after a sequence of `POST /api/water` requests, each made at its own
instant. -/
def applyLogs (verify : String → VerifyResult) (calls : List (Clock × Request))
    (db : Db) : Db :=
  calls.foldl (fun d c => (postWaterRoute verify c.1 c.2 d).db) db

/-! ## Client: Calendar.js and Dashboard.js -/

/-- `getTotalIntake` of Calendar.js (81-83):
`waterIntake.reduce((total, record) => total + record.amount, 0)`. -/
def getTotalIntake (waterIntake : List IntakeRecord) : Int :=
  waterIntake.foldl (fun total record => total + record.amount) 0

/-- The total computed by `fetchTodayIntake` of Dashboard.js (42):
`waterRes.data.reduce((sum, record) => sum + parseInt(record.amount, 10), 0)`. -/
def fetchTodayIntake (data : List IntakeRecord) : Int :=
  data.foldl (fun sum record => sum + parseInt record.amount) 0

/-- A JavaScript object used as a mapping from date strings to numbers: its own
properties in insertion order. -/
abbrev DateMap := List (String × Int)

/-- The property read `obj[key]`: `undefined` when the key is absent. The keys are date
strings, none of which is a name inherited from `Object.prototype`. -/
def DateMap.get : DateMap → String → Option Int
  | [], _ => none
  | (k, v) :: rest, key => if k = key then some v else DateMap.get rest key

/-- The property write `obj[key] = value`: an existing property is overwritten in place,
a new one is added after the others. -/
def DateMap.set : DateMap → String → Int → DateMap
  | [], key, value => [(key, value)]
  | (k, v) :: rest, key, value =>
    if k = key then (k, value) :: rest else (k, v) :: DateMap.set rest key value

/-- `!x` for a property read: `undefined` and `0` are falsy. -/
def isFalsy (x : Option Int) : Bool :=
  match x with
  | none => true
  | some v => v == 0

/-- The body of the `forEach` in `fetchMonthlyData` (Calendar.js 38-44). -/
def addRecord (dataByDate : DateMap) (record : IntakeRecord) : DateMap :=
  let date := record.date
  let initialised :=
    if isFalsy (dataByDate.get date) then dataByDate.set date 0 else dataByDate
  match initialised.get date with
  | some current => initialised.set date (current + record.amount)
  | none => initialised

/-- The mapping `dataByDate` that `fetchMonthlyData` (Calendar.js 36-45) builds from the
records of the response and hands to `setMonthlyData`: the monthly calendar. -/
def fetchMonthlyData (records : List IntakeRecord) : DateMap :=
  records.foldl addRecord []

/-- The three values returned by `getDayColor`: `theme.palette.success.main` (at or above
the goal), `theme.palette.warning.main` (below the goal) and `'transparent'` (no data). -/
inductive DayColor
  | success
  | warning
  | transparent
  deriving DecidableEq

/-- `x || 0` for a property read. -/
def orZero (x : Option Int) : Int :=
  match x with
  | none => 0
  | some v => v

/-- `getDayColor` of Calendar.js (85-96); `formattedDate` is `format(date, 'yyyy-MM-dd')`. -/
def getDayColor (monthlyData : DateMap) (formattedDate : String) : DayColor :=
  let dailyGoal : Int := 2000
  let total := orZero (monthlyData.get formattedDate)
  if total ≥ dailyGoal then .success
  else if total > 0 then .warning
  else .transparent

/-- The query of `GET /range/:startDate/:endDate` (water.js 252-260) as the store runs
it, on the bounds it receives: the records of the user with a date between the bounds,
ordered by date, then time; dates and times are compared as strings. -/
def listForUserInRange (intakes : List IntakeRecord) (userId : Nat)
    (startDate endDate : String) : List IntakeRecord :=
  (intakes.filter
    (fun r => r.UserId == userId && decide (startDate ≤ r.date) && decide (r.date ≤ endDate))
  ).insertionSort (fun a b => a.date < b.date ∨ (a.date = b.date ∧ a.time ≤ b.time))

/-- The colour of a calendar cell as the signed-in `user` sees it: the month is fetched
for `req.user.id` through `GET /range`, aggregated by `fetchMonthlyData` and classified by
`getDayColor`. -/
def calendarDayColor (db : Db) (user : User) (startDate endDate formattedDate : String) :
    DayColor :=
  getDayColor (fetchMonthlyData (listForUserInRange db.intakes user.id startDate endDate))
    formattedDate

/-- The daily total shown for a user and a date: the client requests `GET /date/:date`
and sums the response with `getTotalIntake`. -/
def dailyTotal (db : Db) (userId : Nat) (date : String) : Int :=
  getTotalIntake (listForUserOnDate db.intakes userId date)

/-- A route ended in the gate: the response is `status` with body `{ msg: text }`, the
handler was not invoked and the store is the one the request found. -/
def RouteOutcome.rejected (out : RouteOutcome) (db : Db) (status : Nat) (text : String) :
    Prop :=
  out.response = { status := status, body := .msg text } ∧ out.handlerInvoked = false ∧
    out.db = db

/-! ## middleware/admin.js and the admin-only routes -/

/-- The `admin` middleware that routes/water.js requires (middleware/admin.js 3-16): it
reads the user of `req.user.id` again and answers 403 unless that user exists with role
`admin`. -/
def admin (users : List User) (reqUser : User) : GateResult × List StoreOp :=
  match findByPk users reqUser.id with
  | none =>
    (.respond { status := 403, body := .msg "Access denied. Admin privileges required." },
      [.userFindByPk reqUser.id])
  | some user =>
    if user.role != "admin" then
      (.respond { status := 403, body := .msg "Access denied. Admin privileges required." },
        [.userFindByPk reqUser.id])
    else (.next reqUser, [.userFindByPk reqUser.id])

/-- A route registered as `router.METHOD(path, [auth, admin, ...], handler)` in
routes/water.js: `admin` runs only when `auth` called `next()`, the handler only when
`admin` called `next()`. -/
def adminRoute (verify : String → VerifyResult)
    (handler : User → Request → Db → HandlerResult) (req : Request) (db : Db) :
    RouteOutcome :=
  match auth verify db.users req with
  | (.respond r, ops) =>
    { response := r, db := db, storeOps := ops, handlerInvoked := false }
  | (.next user, ops) =>
    match admin db.users user with
    | (.respond r, ops2) =>
      { response := r, db := db, storeOps := ops ++ ops2, handlerInvoked := false }
    | (.next user2, ops2) =>
      let h := handler user2 req db
      { response := h.response, db := h.db, storeOps := ops ++ ops2 ++ h.storeOps,
        handlerInvoked := true }

/-- The first statement of the admin-only handlers of routes/users.js (`GET /` 82-84,
`PUT /:id` 108-110, `DELETE /:id` 169-171): `if (req.user.role !== 'admin')` answers 403
`Not authorized`; `rest` is the remainder of the handler. -/
def requireAdminInline (rest : User → Request → Db → HandlerResult) (user : User)
    (req : Request) (db : Db) : HandlerResult :=
  if user.role != "admin" then
    { response := { status := 403, body := .msg "Not authorized" }, db := db,
      storeOps := [] }
  else rest user req db

/-- The admin-only operations of the REST surface. -/
inductive AdminOperation
  | postWaterAdmin
  | putWaterAdmin
  | deleteWaterAdmin
  | getWaterAdminUsers
  | getWaterAdminUserDate
  | getUsers
  | putUser
  | deleteUser
  deriving DecidableEq

/-- Whether the operation is a route of routes/water.js, gated by `[auth, admin]`; the
others are routes of routes/users.js, gated by `auth` and the inline role check. -/
def AdminOperation.isWaterRoute : AdminOperation → Bool
  | .postWaterAdmin => true
  | .putWaterAdmin => true
  | .deleteWaterAdmin => true
  | .getWaterAdminUsers => true
  | .getWaterAdminUserDate => true
  | .getUsers => false
  | .putUser => false
  | .deleteUser => false

/-- An admin-only operation on a request: the middleware chain of its route, then the
body of its handler, `handlers op` (for a route of routes/users.js, the part after the
inline role check). -/
def AdminOperation.run (op : AdminOperation) (verify : String → VerifyResult)
    (handlers : AdminOperation → User → Request → Db → HandlerResult) (req : Request)
    (db : Db) : RouteOutcome :=
  if op.isWaterRoute then adminRoute verify (handlers op) req db
  else protectedRoute verify (requireAdminInline (handlers op)) req db

/-! ## routes/auth.js: POST /register and POST /login -/

/-- The validator `not().isEmpty()` on a text field: the value turned into a string
(`''` when the field is not sent) has a positive length. -/
def notEmptyCheck (value : Option String) : Bool :=
  match value with
  | none => false
  | some text => text != ""

/-- The validator `isLength({ min })` on a text field. -/
def isLengthMin (min : Nat) (value : Option String) : Bool :=
  decide (min ≤ (value.getD "").length)

/-- The validator `isIn(options)` on a text field. -/
def isInCheck (options : List String) (value : Option String) : Bool :=
  options.contains (value.getD "")

/-- The messages of the validators of `POST /register` that fail (auth.js 12-17);
`isEmail` is the check of validator.js. -/
def registerValidationErrors (isEmail : String → Bool) (body : RequestBody) :
    List String :=
  (if notEmptyCheck body.username then [] else ["Username is required"]) ++
  (if isEmail (body.email.getD "") then [] else ["Please include a valid email"]) ++
  (if isLengthMin 6 body.password then []
    else ["Please enter a password with 6 or more characters"]) ++
  (if notEmptyCheck body.firstName then [] else ["First name is required"]) ++
  (if notEmptyCheck body.lastName then [] else ["Last name is required"]) ++
  (if isInCheck ["male", "female"] body.gender then [] else ["Gender is required"])

/-- Truthiness of a body value: `undefined`, `null`, `false`, `0`, `NaN` and `''` are
falsy. -/
def JsonValue.truthy : JsonValue → Bool
  | .missing => false
  | .null => false
  | .bool b => b
  | .int n => n != 0
  | .number text => text != "0" && text != "NaN"
  | .str text => text != ""

/-- The integer that an INTEGER column accepts for a body value; `none` when the value is
not an integer. -/
def integerOf : JsonValue → Option Int
  | .missing => none
  | .null => none
  | .bool _ => none
  | .int n => some n
  | .number text => integerLiteral text
  | .str text => integerLiteral text

/-- The model validator `len: [lo, hi]`. -/
def lenBetween (lo hi : Nat) (text : String) : Bool :=
  decide (lo ≤ text.length) && decide (text.length ≤ hi)

/-- Whether a text is empty or white space only; the model validator `notEmpty` rejects
such a text, and `text.trim()` is falsy for it. -/
def isBlank (text : String) : Bool :=
  text.toList.all Char.isWhitespace

/-- The validators of models/User.js that fail for the values given to `User.create`, as
pairs of field and rule; `goal` is the value of `dailyWaterGoal`, `none` when it is not an
integer. The role and the gender are members of their enumerations when this runs. The
goals of the store are integers, so a goal that is truthy and no integer (`'abc'`, `2.5`,
`true`) is outside the model: the ORM does not check the type of the value and the code
stores it as it is given, where the model marks it with the pair
`(dailyWaterGoal, integer)`. -/
def userModelFailures (isEmail : String → Bool) (username email password firstName
    lastName : String) (middleName : Option String) (goal : Option Int) :
    List (String × String) :=
  (if lenBetween 3 30 username then [] else [("username", "len")]) ++
  (if isBlank username then [("username", "notEmpty")] else []) ++
  (if isEmail email then [] else [("email", "isEmail")]) ++
  (if isBlank email then [("email", "notEmpty")] else []) ++
  (if isBlank password then [("password", "notEmpty")] else []) ++
  (if lenBetween 2 50 firstName then [] else [("firstName", "len")]) ++
  (if isBlank firstName then [("firstName", "notEmpty")] else []) ++
  (if lenBetween 2 50 lastName then [] else [("lastName", "len")]) ++
  (if isBlank lastName then [("lastName", "notEmpty")] else []) ++
  (match middleName with
    | none => []
    | some m => if lenBetween 2 50 m then [] else [("middleName", "len")]) ++
  (match goal with
    | none => [("dailyWaterGoal", "integer")]
    | some n => if 0 ≤ n then [] else [("dailyWaterGoal", "min")])

/-- The id given to a new user by the autoincrement primary key. -/
def nextUserId (users : List User) : Nat :=
  (users.map (fun u => u.id)).foldr max 0 + 1

/-- Lines 71-94 of auth.js: the password is hashed, `userData` is built with
`dailyWaterGoal || 2000`, `role: 'user'` and the middle name only when it is not blank,
and `User.create(userData)` validates it: the result is the created user, or the failed
validators of the error it throws. -/
def createUser (isEmail : String → Bool) (hash : String → String) (body : RequestBody)
    (users : List User) : Except (List (String × String)) User :=
  let username := body.username.getD ""
  let email := body.email.getD ""
  let hashedPassword := hash (body.password.getD "")
  let firstName := body.firstName.getD ""
  let lastName := body.lastName.getD ""
  let goalValue := if body.dailyWaterGoal.truthy then body.dailyWaterGoal else .int 2000
  let middleName :=
    match body.middleName with
    | none => none
    | some m => if isBlank m then none else some m
  let failures := userModelFailures isEmail username email hashedPassword firstName
    lastName middleName (integerOf goalValue)
  if failures ≠ [] then .error failures
  else
    .ok
      { id := nextUserId users, username := username, email := email,
        password := some hashedPassword, firstName := firstName, lastName := lastName,
        middleName := middleName, gender := body.gender.getD "",
        dailyWaterGoal := (integerOf goalValue).getD 2000, role := "user" }

/-- The handler of `POST /register` (auth.js 18-136). `hash` is `bcrypt.hash` with the
salt generated for the request, `sign` is `jwt.sign` with the process secret and the 24h
expiry, `development` is `process.env.NODE_ENV === 'development'`. A validation error
thrown by `User.create` is caught and answered 500. -/
def registerHandler (isEmail : String → Bool) (hash : String → String)
    (sign : PayloadUser → String) (development : Bool) (req : Request) (db : Db) :
    HandlerResult :=
  let errors := registerValidationErrors isEmail req.body
  if errors ≠ [] then
    { response := { status := 400, body := .validationFailed "Validation failed" errors },
      db := db, storeOps := [] }
  else
    let username := req.body.username.getD ""
    let email := req.body.email.getD ""
    match db.users.find? (fun u => u.username == username) with
    | some _ =>
      { response := { status := 400, body := .msg "User already exists" }, db := db,
        storeOps := [.userFindOne "username" username] }
    | none =>
      match db.users.find? (fun u => u.email == email) with
      | some _ =>
        { response := { status := 400, body := .msg "Email already registered" },
          db := db,
          storeOps := [.userFindOne "username" username, .userFindOne "email" email] }
      | none =>
        match createUser isEmail hash req.body db.users with
        | .error failures =>
          { response :=
              { status := 500,
                body := .serverFailure "Server error"
                  (if development then
                    some { type := "SequelizeValidationError", fields := failures }
                  else none) },
            db := db,
            storeOps := [.userFindOne "username" username, .userFindOne "email" email] }
        | .ok user =>
          { response :=
              { status := 200, body := .token (sign { id := user.id, role := user.role }) },
            db := { db with users := db.users ++ [user] },
            storeOps := [.userFindOne "username" username, .userFindOne "email" email,
              .userCreate username] }

/-- The handler of `POST /login` (auth.js 144-218). `compare` is `bcrypt.compare`, which
throws when the stored hash is not a string. -/
def loginHandler (compare : String → String → Bool) (sign : PayloadUser → String)
    (development : Bool) (req : Request) (db : Db) : HandlerResult :=
  let errors :=
    (if req.body.username.isSome then [] else ["Username is required"]) ++
    (if req.body.password.isSome then [] else ["Password is required"])
  if errors ≠ [] then
    { response := { status := 400, body := .validationErrors errors }, db := db,
      storeOps := [] }
  else
    let username := req.body.username.getD ""
    let password := req.body.password.getD ""
    match db.users.find? (fun u => u.username == username) with
    | none =>
      { response := { status := 400, body := .msg "Invalid credentials" }, db := db,
        storeOps := [.userFindOne "username" username] }
    | some user =>
      match user.password with
      | none =>
        { response :=
            { status := 500,
              body := .serverFailure "Server error"
                (if development then some { type := "Error", fields := [] } else none) },
          db := db, storeOps := [.userFindOne "username" username] }
      | some hashed =>
        if !compare password hashed then
          { response := { status := 400, body := .msg "Invalid credentials" }, db := db,
            storeOps := [.userFindOne "username" username] }
        else
          { response :=
              { status := 200, body := .token (sign { id := user.id, role := user.role }) },
            db := db, storeOps := [.userFindOne "username" username] }

/-! ## routes/users.js: PUT /me -/

/-- `value || null` and `if (value)` on a text field: the value when it is a non-empty
string. -/
def truthyText (value : Option String) : Option String :=
  match value with
  | none => none
  | some text => if text = "" then none else some text

/-- The messages of the validators of `PUT /me` that fail (users.js 34-37); `optional()`
skips a field that is not sent. -/
def putMeValidationErrors (body : RequestBody) : List String :=
  (if notEmptyCheck body.firstName then [] else ["First name is required"]) ++
  (if notEmptyCheck body.lastName then [] else ["Last name is required"]) ++
  (match body.gender with
    | none => []
    | some _ =>
      if isInCheck ["male", "female"] body.gender then []
      else ["Gender must be either male or female"]) ++
  (match body.dailyWaterGoal with
    | .missing => []
    | value =>
      if isInt 0 value then [] else ["Daily water goal must be a positive number"])

/-- The validators of models/User.js that fail for the values of `updateData`
(users.js 48-55); `goal` is `none` when `dailyWaterGoal` is not updated. -/
def updateModelFailures (firstName lastName : String) (middleName : Option String)
    (goal : Option (Option Int)) : List (String × String) :=
  (if lenBetween 2 50 firstName then [] else [("firstName", "len")]) ++
  (if isBlank firstName then [("firstName", "notEmpty")] else []) ++
  (if lenBetween 2 50 lastName then [] else [("lastName", "len")]) ++
  (if isBlank lastName then [("lastName", "notEmpty")] else []) ++
  (match middleName with
    | none => []
    | some m => if lenBetween 2 50 m then [] else [("middleName", "len")]) ++
  (match goal with
    | none => []
    | some none => [("dailyWaterGoal", "integer")]
    | some (some n) => if 0 ≤ n then [] else [("dailyWaterGoal", "min")])

/-- The handler of `PUT /me` (users.js 39-75) for the authenticated `user`:
`User.update(updateData, { where: { id: req.user.id } })`, where `updateData` holds
`firstName`, `lastName`, `middleName` and, when truthy, `gender` and `dailyWaterGoal`. A
validation error thrown by `User.update` is caught and answered 500. -/
def putMeHandler (user : User) (req : Request) (db : Db) : HandlerResult :=
  let errors := putMeValidationErrors req.body
  if errors ≠ [] then
    { response := { status := 400, body := .validationErrors errors }, db := db,
      storeOps := [] }
  else
    let firstName := req.body.firstName.getD ""
    let lastName := req.body.lastName.getD ""
    let middleName := truthyText req.body.middleName
    let gender := truthyText req.body.gender
    let goal : Option (Option Int) :=
      if req.body.dailyWaterGoal.truthy then some (integerOf req.body.dailyWaterGoal)
      else none
    if updateModelFailures firstName lastName middleName goal ≠ [] then
      { response := { status := 500, body := .msg "Server error" }, db := db,
        storeOps := [] }
    else
      let updated := (db.users.filter (fun u => u.id == user.id)).length
      let users := db.users.map (fun u =>
        if u.id == user.id then
          { u with
            firstName := firstName, lastName := lastName, middleName := middleName,
            gender := gender.getD u.gender,
            dailyWaterGoal :=
              match goal with
              | some (some n) => n
              | _ => u.dailyWaterGoal }
        else u)
      if updated == 0 then
        { response := { status := 404, body := .msg "User not found" },
          db := { db with users := users }, storeOps := [.userUpdate user.id] }
      else
        { response :=
            { status := 200, body := .user ((findByPk users user.id).map excludePassword) },
          db := { db with users := users },
          storeOps := [.userUpdate user.id, .userFindByPk user.id] }

/-- The route `PUT /api/users/me` (users.js 31). -/
def putMeRoute (verify : String → VerifyResult) (req : Request) (db : Db) :
    RouteOutcome :=
  protectedRoute verify putMeHandler req db

/-! ## routes/water.js: POST /admin -/

/-- The pattern `/^\d{2}:\d{2}:\d{2}$/` (water.js 146). -/
def timeRegexTest (s : String) : Bool :=
  match s.toList with
  | [h1, h2, c1, m1, m2, c2, s1, s2] =>
    h1.isDigit && h2.isDigit && c1 == ':' && m1.isDigit && m2.isDigit && c2 == ':' &&
      s1.isDigit && s2.isDigit
  | _ => false

/-- The messages of the validators of `POST /admin` that fail (water.js 143-146). -/
def postAdminValidationErrors (body : RequestBody) : List String :=
  (if isInt 1 body.amount then [] else ["Amount is required and must be positive"]) ++
  (if body.userId.isSome then [] else ["User ID is required"]) ++
  (if dateRegexTest (body.date.getD "") then [] else ["Date is required (YYYY-MM-DD)"]) ++
  (if timeRegexTest (body.time.getD "") then [] else ["Time is required (HH:mm:ss)"])

/-- The handler of `POST /admin` (water.js 147-175), the first of the two registered for
the path and the only one that runs. `WaterIntake.create` passes the date through the
DATEONLY type of the ORM: the text has passed the pattern of the validator, so it is kept
when it names a day of the calendar and replaced by the text `Invalid date` otherwise
(`calendarDateOrInvalid`). The time is kept as the string it is given, and the amount is
the number that `parseInt` reads. -/
def postWaterAdminHandler (_user : User) (req : Request) (db : Db) : HandlerResult :=
  let errors := postAdminValidationErrors req.body
  if errors ≠ [] then
    { response := { status := 400, body := .validationErrors errors }, db := db,
      storeOps := [] }
  else
    match req.body.userId with
    | none =>
      { response := { status := 404, body := .msg "User not found" }, db := db,
        storeOps := [] }
    | some userId =>
      match findByPk db.users userId with
      | none =>
        { response := { status := 404, body := .msg "User not found" }, db := db,
          storeOps := [.userFindByPk userId] }
      | some _ =>
        match parseIntJson req.body.amount with
        | none =>
          { response :=
              { status := 500,
                body := .serverError "Server error" "NaN is not a valid integer" },
            db := db, storeOps := [.userFindByPk userId] }
        | some amount =>
          let record : IntakeRecord :=
            { id := nextId db.intakes, UserId := userId, amount := amount,
              date := calendarDateOrInvalid (req.body.date.getD ""),
              time := req.body.time.getD "" }
          { response := { status := 200, body := .record record },
            db := { db with intakes := db.intakes ++ [record] },
            storeOps := [.userFindByPk userId, .intakeCreate userId] }

/-- The route `POST /api/water/admin` (water.js 142). -/
def postWaterAdminRoute (verify : String → VerifyResult) (req : Request) (db : Db) :
    RouteOutcome :=
  adminRoute verify postWaterAdminHandler req db

/-! ## models/WaterIntake.js: the beforeSave hook and the amount validator -/

/-- The attribute values of a `WaterIntake` instance when the `beforeSave` hook runs. The
amount is the value the route gave (a number or a string); the date and the time are
strings: a `Date` given for the DATEONLY attribute has been formatted as `YYYY-MM-DD` by
the ORM before the hook runs. -/
structure IntakeValues where
  amount : JsonValue
  date : String
  time : String
  deriving DecidableEq

/-- The `beforeSave` hook of models/WaterIntake.js (37-58): a string amount is replaced by
`parseInt(amount, 10)` (`NaN` when no digit is read); a date or a time that is a string is
kept whether or not it matches its pattern, since the other branch applies to a `Date`
only. -/
def beforeSave (values : IntakeValues) : IntakeValues :=
  { amount :=
      match values.amount with
      | .str text =>
        match parseIntText text with
        | some n => .int n
        | none => .number "NaN"
      | other => other
    date := if dateRegexTest values.date then values.date else values.date
    time := if timeRegexTest values.time then values.time else values.time }

/-- Whether `parseFloat(text)` is a number below 0: the text has, after leading white
space, the sign `-` and a digit other than `0` in the digits before or after the decimal
point. (`-Infinity` is not recognised; `parseInt` reads no digit from it.) -/
def parseFloatNegative (text : String) : Bool :=
  let signed := splitSign (text.toList.dropWhile Char.isWhitespace)
  let whole := signed.2.takeWhile Char.isDigit
  let fraction :=
    match signed.2.dropWhile Char.isDigit with
    | [] => []
    | c :: rest => if c = '.' then rest.takeWhile Char.isDigit else []
  signed.1 && (whole ++ fraction).any (fun c => c != '0')

/-- The model validator `validate: { min: 0 }` of `amount` (WaterIntake.js 14-16) as the
ORM runs it: `parseFloat(String(value))` is `NaN` or at least 0. -/
def minZeroCheck (value : JsonValue) : Bool :=
  match value with
  | .missing => true
  | .null => true
  | .bool _ => true
  | .int n => decide (0 ≤ n)
  | .number text => !parseFloatNegative text
  | .str text => !parseFloatNegative text

/-! ## routes/water.js: GET /range, GET /admin/:userId/date/:date, PUT and DELETE /admin/:id -/

/-- The handler of `GET /range/:startDate/:endDate` (water.js 250-266): the parameters go
to `findAll` unchecked. The ORM turns each bound into a value of the DATEONLY column before
it sends the query (`dateOnly`, with the library's reading of other texts as `fallback`),
and the store compares the dates of the records with these two values as strings. -/
def getRangeHandler (fallback : String → String) (user : User) (req : Request) (db : Db) :
    HandlerResult :=
  { response :=
      { status := 200,
        body := .records
          (listForUserInRange db.intakes user.id (dateOnly fallback req.startDate)
            (dateOnly fallback req.endDate)) },
    db := db, storeOps := [.intakeFindAll user.id] }

/-- The route `GET /api/water/range/:startDate/:endDate` (water.js 250). -/
def getRangeRoute (verify : String → VerifyResult) (fallback : String → String)
    (req : Request) (db : Db) : RouteOutcome :=
  protectedRoute verify (getRangeHandler fallback) req db

/-- The handler of `GET /admin/:userId/date/:date` (water.js 196-226), the first of the
two registered for the path. -/
def getAdminUserDateHandler (_user : User) (req : Request) (db : Db) : HandlerResult :=
  if !dateRegexTest req.date then
    { response := { status := 400, body := .msg "Invalid date format. Use YYYY-MM-DD" },
      db := db, storeOps := [] }
  else
    match req.userId with
    | none =>
      { response := { status := 404, body := .msg "User not found" }, db := db,
        storeOps := [] }
    | some userId =>
      match findByPk db.users userId with
      | none =>
        { response := { status := 404, body := .msg "User not found" }, db := db,
          storeOps := [.userFindByPk userId] }
      | some _ =>
        { response :=
            { status := 200, body := .records (listForUserOnDate db.intakes userId req.date) },
          db := db, storeOps := [.userFindByPk userId, .intakeFindAll userId] }

/-- The route `GET /api/water/admin/:userId/date/:date` (water.js 196). -/
def getAdminUserDateRoute (verify : String → VerifyResult) (req : Request) (db : Db) :
    RouteOutcome :=
  adminRoute verify getAdminUserDateHandler req db

/-- The handler of `PUT /admin/:id` (water.js 371-389): `findByPk(req.params.id)`, then
`waterIntake.update({ amount: req.body.amount, time: req.body.time })`. The ORM ignores a
value that is `undefined` (the attribute keeps its value and is not validated), refuses
`null` (`allowNull: false`) and a value that fails `min: 0`, runs the `beforeSave` hook
and writes the amount and the time of the row. Any
error is caught and answered 500 with the text `Server Error`. The amounts of the store
are integers, so an amount that is a boolean, a non-integer number or `NaN` is outside
the model: the ORM does not check the type of the value and the code writes it as it is
given and answers 200, where the model takes the branch of a refusal. -/
def putWaterAdminHandler (_user : User) (req : Request) (db : Db) : HandlerResult :=
  match db.intakes.find? (fun r => some r.id == req.id) with
  | none =>
    { response := { status := 404, body := .msg "Water intake record not found" },
      db := db, storeOps := [.intakeFindByPk req.id] }
  | some record =>
    let values : IntakeValues :=
      { amount :=
          match req.body.amount with
          | .missing => .int record.amount
          | value => value
        date := record.date
        time := req.body.time.getD record.time }
    let refused :=
      match req.body.amount with
      | .missing => false
      | value => value == JsonValue.null || !minZeroCheck value
    if refused then
      { response := { status := 500, body := .text "Server Error" }, db := db,
        storeOps := [.intakeFindByPk req.id] }
    else
      let saved := beforeSave values
      match saved.amount with
      | .int n =>
        { response :=
            { status := 200, body := .record { record with amount := n, time := saved.time } },
          db :=
            { db with intakes := db.intakes.map (fun r =>
                if r.id == record.id then { r with amount := n, time := saved.time }
                else r) },
          storeOps := [.intakeFindByPk req.id, .intakeUpdate record.id] }
      | _ =>
        { response := { status := 500, body := .text "Server Error" }, db := db,
          storeOps := [.intakeFindByPk req.id] }

/-- The route `PUT /api/water/admin/:id` (water.js 371). -/
def putWaterAdminRoute (verify : String → VerifyResult) (req : Request) (db : Db) :
    RouteOutcome :=
  adminRoute verify putWaterAdminHandler req db

/-- The handler of `DELETE /admin/:id` (water.js 394-408). -/
def deleteWaterAdminHandler (_user : User) (req : Request) (db : Db) : HandlerResult :=
  match db.intakes.find? (fun r => some r.id == req.id) with
  | none =>
    { response := { status := 404, body := .msg "Water intake record not found" },
      db := db, storeOps := [.intakeFindByPk req.id] }
  | some record =>
    { response := { status := 200, body := .msg "Water intake record removed" },
      db := { db with intakes := db.intakes.filter (fun r => r.id != record.id) },
      storeOps := [.intakeFindByPk req.id, .intakeDestroy record.id] }

/-- The route `DELETE /api/water/admin/:id` (water.js 394). -/
def deleteWaterAdminRoute (verify : String → VerifyResult) (req : Request) (db : Db) :
    RouteOutcome :=
  adminRoute verify deleteWaterAdminHandler req db

/-! ## Client: AdminPanel.js -/

/-- The state `recordForm` of the admin panel: `amount` is the text typed into the form or
the number of the record opened for edit, `time` the value of the time input. -/
structure RecordForm where
  amount : JsonValue
  time : String
  deriving DecidableEq

/-- The form that `handleEditRecord` fills from a record (AdminPanel.js 98-105). -/
def handleEditRecord (record : IntakeRecord) : RecordForm :=
  { amount := .int record.amount, time := record.time }

/-- The object `data` that `handleSubmitRecord` sends (AdminPanel.js 121-138):
`none` when the guard `!recordForm.amount || !recordForm.time || !selectedUser` stops the
submission; `selectedDate` is `format(selectedDate, 'yyyy-MM-dd')`. A `NaN` amount is
serialised as `null`. -/
def handleSubmitRecord (recordForm : RecordForm) (selectedUser : Option Nat)
    (selectedDate : String) : Option RequestBody :=
  let noUser :=
    match selectedUser with
    | none => true
    | some id => id == 0
  if !recordForm.amount.truthy || recordForm.time == "" || noUser then none
  else
    some
      { RequestBody.empty with
        userId := selectedUser
        amount :=
          match parseIntJson recordForm.amount with
          | some n => .int n
          | none => .null
        date := some selectedDate
        time := some (recordForm.time ++ ":00") }

/-- The shape `HH:MM` of the value of a time input. -/
def hourMinuteTest (s : String) : Bool :=
  match s.toList with
  | [h1, h2, c, m1, m2] => h1.isDigit && h2.isDigit && c == ':' && m1.isDigit && m2.isDigit
  | _ => false

/-! ## Sample data: the example of the specification -/

/-- The user registered in the example: alice, role `user`, default goal. -/
def alice : User :=
  { id := 1, username := "alice", email := "alice@x.com", password := some "$2a$10$hash",
    firstName := "Alice", lastName := "Smith", middleName := none, gender := "female",
    dailyWaterGoal := 2000, role := "user" }

/-- A verifier that accepts the token issued to alice and rejects every other string as
malformed. -/
def aliceVerify (token : String) : VerifyResult :=
  if token = "token-A" then .decoded (some { id := 1, role := "user" })
  else .jsonWebTokenError

/-- A request that carries alice's token, with the given number as `amount` in its body
(no `amount` field for `none`). -/
def aliceRequest (amount : Option Int) : Request :=
  { headers := [("x-auth-token", "token-A")], date := "2024-03-01",
    startDate := "2024-03-01", endDate := "2024-03-31", id := none, userId := none,
    body :=
      { RequestBody.empty with
        amount := match amount with
          | some n => .int n
          | none => .missing } }

/-- A request without any header. -/
def anonymousRequest : Request :=
  { headers := [], date := "2024-03-01", startDate := "2024-03-01",
    endDate := "2024-03-31", id := none, userId := none,
    body := { RequestBody.empty with amount := .int 250 } }

/-- A handler that answers 200 and adds a record: it stands for any downstream handler
that touches the store. -/
def sampleHandler (user : User) (_req : Request) (db : Db) : HandlerResult :=
  { response := { status := 200, body := .msg "ok" },
    db := { db with intakes := db.intakes ++
      [{ id := nextId db.intakes, UserId := user.id, amount := 1, date := "2024-03-01",
         time := "10:00:00" }] },
    storeOps := [.intakeCreate user.id] }

/-- An administrator of the sample store. -/
def carol : User :=
  { id := 2, username := "carol", email := "carol@x.com", password := some "$2a$10$other",
    firstName := "Carol", lastName := "Jones", middleName := none, gender := "female",
    dailyWaterGoal := 2500, role := "admin" }

/-- A verifier that accepts the tokens issued to alice and to carol, reports the token
`token-old` as expired and rejects every other string as malformed. -/
def sampleVerify (token : String) : VerifyResult :=
  if token = "token-A" then .decoded (some { id := 1, role := "user" })
  else if token = "token-C" then .decoded (some { id := 2, role := "admin" })
  else if token = "token-old" then .tokenExpiredError
  else .jsonWebTokenError

/-- A request with the given token and body. -/
def requestWith (token : String) (body : RequestBody) : Request :=
  { headers := [("x-auth-token", token)], date := "2024-03-01",
    startDate := "2024-03-01", endDate := "2024-03-31", id := none, userId := none,
    body := body }

/-- A stand-in for the e-mail check of validator.js: the text holds an `@`. -/
def sampleIsEmail (text : String) : Bool := text.toList.contains '@'

/-- A stand-in for `bcrypt.hash` with a fixed salt. -/
def sampleHash (password : String) : String := "$2a$10$" ++ password

/-- A stand-in for `bcrypt.compare`, matching `sampleHash`. -/
def sampleCompare (password hashed : String) : Bool := sampleHash password == hashed

/-- A stand-in for `jwt.sign`: the token shows the role of its payload. -/
def sampleSign (payload : PayloadUser) : String := "token-for-" ++ payload.role

/-- The registration of the example: bob, who also sends `role: 'admin'`. -/
def bobRegistration : RequestBody :=
  { RequestBody.empty with
    username := some "bob", email := some "bob@x.com", password := some "secret1",
    firstName := some "Bob", lastName := some "Brown", gender := some "male",
    role := some "admin" }

/-- The relation between a stored user before and after a self-service update by the
user with id `caller`: the identity fields, the password and the role are the same, and a
user other than the caller is the same record. -/
def selfUpdateFrame (caller : Nat) (old new : User) : Prop :=
  new.id = old.id ∧ new.username = old.username ∧ new.email = old.email ∧
    new.password = old.password ∧ new.role = old.role ∧ (old.id ≠ caller → new = old)

/-- A record of alice in the sample ledger. -/
def sampleRecord : IntakeRecord :=
  { id := 1, UserId := 1, amount := 250, date := "2024-03-01", time := "10:00:00" }

/-- The sample store: alice and carol, one record of alice. -/
def sampleDb : Db := { users := [alice, carol], intakes := [sampleRecord] }

/-- A request of carol, the administrator, on the record with the given id. -/
def carolRequest (id : Nat) (body : RequestBody) : Request :=
  { requestWith "token-C" body with id := some id }

/-- A verifier for which two tokens are valid for the user id 1: `token-A` carries the
role `user`, `token-A-admin` the role `admin`. -/
def twoRoleVerify (token : String) : VerifyResult :=
  if token = "token-A" then .decoded (some { id := 1, role := "user" })
  else if token = "token-A-admin" then .decoded (some { id := 1, role := "admin" })
  else .jsonWebTokenError

/-- The relation between a stored record before and after `PUT /admin/:id` for the
parameter `id`: the id, the owner and the date are the same, and a record with another id
is the same record. -/
def recordUpdateFrame (id : Option Nat) (old new : IntakeRecord) : Prop :=
  new.id = old.id ∧ new.UserId = old.UserId ∧ new.date = old.date ∧
    (some old.id ≠ id → new = old)

/-- The order of `ORDER BY date ASC, time ASC` on two records. -/
def dateTimeLe (a b : IntakeRecord) : Prop :=
  a.date < b.date ∨ (a.date = b.date ∧ a.time ≤ b.time)

/-- A store for the range query: three records of alice, in February and March 2024, and
one record of carol. -/
def rangeDb : Db :=
  { users := [alice, carol],
    intakes :=
      [{ id := 1, UserId := 1, amount := 250, date := "2024-03-05", time := "09:00:00" },
       { id := 2, UserId := 1, amount := 300, date := "2024-02-10", time := "18:30:00" },
       { id := 3, UserId := 2, amount := 500, date := "2024-02-11", time := "07:00:00" },
       { id := 4, UserId := 1, amount := 200, date := "2024-02-10", time := "08:00:00" }] }

/-- A stand-in for the library's reading of a text that has not the shape `YYYY-MM-DD`,
on the texts of the examples: `2024-3-1` and `2024-3-31` are read as the first and the
last day of March 2024, every other text as no date. -/
def sampleFallback (text : String) : String :=
  if text = "2024-3-1" then "2024-03-01"
  else if text = "2024-3-31" then "2024-03-31"
  else "Invalid date"

/-- A request of alice for `GET /range/:startDate/:endDate` with the given bounds. -/
def rangeRequest (startDate endDate : String) : Request :=
  { requestWith "token-A" RequestBody.empty with startDate := startDate, endDate := endDate }

/-! ## Lemmas on the reduces -/

theorem foldl_add_total (ds : List DayTotal) (acc : Int) :
    ds.foldl (fun sum day => sum + parseInt day.total) acc
      = acc + (ds.map (fun d => d.total)).sum := by
  induction ds generalizing acc with
  | nil => simp
  | cons d ds ih =>
    rw [List.foldl_cons, ih, List.map_cons, List.sum_cons]
    simp only [parseInt]
    ring

theorem bestDayStep_total_le (b : BestDay) (x : DayTotal) :
    b.total ≤ (bestDayStep b x).total ∧ x.total ≤ (bestDayStep b x).total := by
  unfold bestDayStep parseInt
  by_cases h : x.total > b.total
  · simp only [h, if_true]
    exact ⟨le_of_lt h, le_refl _⟩
  · simp only [h, if_false]
    exact ⟨le_refl _, not_lt.mp h⟩

theorem foldl_bestDayStep_ge (ds : List DayTotal) (b : BestDay) :
    b.total ≤ (ds.foldl bestDayStep b).total ∧
      ∀ d ∈ ds, d.total ≤ (ds.foldl bestDayStep b).total := by
  induction ds generalizing b with
  | nil => simp
  | cons x xs ih =>
    obtain ⟨h1, h2⟩ := ih (bestDayStep b x)
    obtain ⟨s1, s2⟩ := bestDayStep_total_le b x
    refine ⟨le_trans s1 h1, ?_⟩
    intro d hd
    rcases List.mem_cons.mp hd with rfl | hd
    · exact le_trans s2 h1
    · exact h2 d hd

theorem foldl_bestDayStep_keep (ds : List DayTotal) (b : BestDay)
    (h : ∀ d ∈ ds, d.total ≤ b.total) : ds.foldl bestDayStep b = b := by
  induction ds generalizing b with
  | nil => rfl
  | cons x xs ih =>
    have hx : ¬ x.total > b.total := not_lt.mpr (h x (List.mem_cons_self _ _))
    have hstep : bestDayStep b x = b := by
      simp only [bestDayStep, parseInt, hx, if_false]
    simp only [List.foldl_cons, hstep]
    exact ih b (fun d hd => h d (List.mem_cons_of_mem _ hd))

theorem foldl_bestDayStep_first (ds : List DayTotal) (b : BestDay)
    (h : ∃ d ∈ ds, b.total < d.total) :
    ∃ pre d post, ds = pre ++ d :: post ∧
      ds.foldl bestDayStep b = { date := some d.date, total := d.total } ∧
      b.total < d.total ∧
      (∀ e ∈ pre, e.total < d.total) ∧ (∀ e ∈ post, e.total ≤ d.total) := by
  induction ds generalizing b with
  | nil => simp at h
  | cons x xs ih =>
    by_cases hx : x.total > b.total
    · have hstep : bestDayStep b x = { date := some x.date, total := x.total } := by
        simp only [bestDayStep, parseInt, hx, if_true]
      by_cases hxs : ∃ d ∈ xs, x.total < d.total
      · obtain ⟨pre, d, post, e1, e2, e3, e4, e5⟩ :=
          ih { date := some x.date, total := x.total } hxs
        refine ⟨x :: pre, d, post, by simp [e1], ?_, lt_trans hx e3, ?_, e5⟩
        · simp only [List.foldl_cons, hstep]
          exact e2
        · intro e he
          rcases List.mem_cons.mp he with rfl | he
          · exact e3
          · exact e4 e he
      · have hall : ∀ d ∈ xs, d.total ≤ x.total := by
          intro d hd
          by_contra hc
          exact hxs ⟨d, hd, not_le.mp hc⟩
        refine ⟨[], x, xs, by simp, ?_, hx, by simp, hall⟩
        simp only [List.foldl_cons, hstep]
        exact foldl_bestDayStep_keep xs _ hall
    · have hstep : bestDayStep b x = b := by
        simp only [bestDayStep, parseInt, hx, if_false]
      have hxs : ∃ d ∈ xs, b.total < d.total := by
        obtain ⟨d, hd, hlt⟩ := h
        rcases List.mem_cons.mp hd with rfl | hd
        · exact absurd hlt hx
        · exact ⟨d, hd, hlt⟩
      obtain ⟨pre, d, post, e1, e2, e3, e4, e5⟩ := ih b hxs
      refine ⟨x :: pre, d, post, by simp [e1], ?_, e3, ?_, e5⟩
      · simp only [List.foldl_cons, hstep]
        exact e2
      · intro e he
        rcases List.mem_cons.mp he with rfl | he
        · exact lt_of_le_of_lt (not_lt.mp hx) e3
        · exact e4 e he

/-! ## GET /stats: best day, average, total -/

/-- C1, as stated, fails on a list whose only day has total 0: the reduce keeps its
initial value, so `bestDay` is `{ date: null, total: 0 }` and is not the entry of that
day, although that entry has the highest single-day sum of the list. -/
theorem bestDay_zero_total_counterexample :
    (bestDay [{ date := "2024-03-01", total := 0 }]).date = none ∧
    ¬ (∃ d ∈ [({ date := "2024-03-01", total := 0 } : DayTotal)],
        (∀ e ∈ [({ date := "2024-03-01", total := 0 } : DayTotal)], e.total ≤ d.total) ∧
        bestDay [{ date := "2024-03-01", total := 0 }]
          = { date := some d.date, total := d.total }) := by
  decide

/-- C1 (amended): for every list of per-day totals, the total of `bestDay` is at least
every daily total of the list; when some daily total is positive, `bestDay` is the entry
with the highest total and, among the entries that tie for it, the first in input order
(every earlier entry is strictly smaller, every later one is at most equal); when no daily
total is positive, `bestDay` is the initial `{ date: null, total: 0 }`. -/
theorem bestDay_highest_first (ds : List DayTotal) :
    (∀ d ∈ ds, d.total ≤ (bestDay ds).total) ∧
    ((∃ d ∈ ds, 0 < d.total) →
      ∃ pre d post, ds = pre ++ d :: post ∧
        bestDay ds = { date := some d.date, total := d.total } ∧
        (∀ e ∈ pre, e.total < d.total) ∧ (∀ e ∈ post, e.total ≤ d.total)) ∧
    ((∀ d ∈ ds, d.total ≤ 0) → bestDay ds = { date := none, total := 0 }) := by
  refine ⟨(foldl_bestDayStep_ge ds _).2, ?_, ?_⟩
  · intro h
    obtain ⟨pre, d, post, e1, e2, _, e4, e5⟩ :=
      foldl_bestDayStep_first ds { date := none, total := 0 } h
    exact ⟨pre, d, post, e1, e2, e4, e5⟩
  · intro h
    exact foldl_bestDayStep_keep ds { date := none, total := 0 } h

/-- C1 (amended), at a list where two days tie at 500: the first of them is the best
day. -/
theorem bestDay_highest_first_witness :
    (∃ d ∈ [({ date := "2024-03-03", total := 300 } : DayTotal),
        { date := "2024-03-02", total := 500 }, { date := "2024-03-01", total := 500 }],
      0 < d.total) ∧
    ∃ pre d post,
      [({ date := "2024-03-03", total := 300 } : DayTotal),
        { date := "2024-03-02", total := 500 }, { date := "2024-03-01", total := 500 }]
        = pre ++ d :: post ∧
      bestDay [{ date := "2024-03-03", total := 300 },
        { date := "2024-03-02", total := 500 }, { date := "2024-03-01", total := 500 }]
        = { date := some d.date, total := d.total } ∧
      (∀ e ∈ pre, e.total < d.total) ∧ (∀ e ∈ post, e.total ≤ d.total) :=
  ⟨⟨_, List.mem_cons_self _ _, by decide⟩,
    (bestDay_highest_first _).2.1 ⟨_, List.mem_cons_self _ _, by decide⟩⟩

/-- C2: for every list of per-day totals, `dailyAverage` is `monthlyTotal` divided by the
number of rows (the days that have data); for the empty list the divisor is 1, so the
divisor is never 0 and the average of the empty list is 0. -/
theorem dailyAverage_divides_by_days (ds : List DayTotal) :
    averageDivisor ds = (if ds.length = 0 then 1 else ds.length) ∧
    averageDivisor ds ≠ 0 ∧
    dailyAverage ds
      = (monthlyTotal ds : ℚ) / (((if ds.length = 0 then 1 else ds.length : ℕ)) : ℚ) ∧
    averageDivisor [] = 1 ∧
    dailyAverage [] = 0 := by
  have hdiv : averageDivisor ds = (if ds.length = 0 then 1 else ds.length) := by
    unfold averageDivisor jsOr
    rfl
  refine ⟨hdiv, ?_, ?_, rfl, ?_⟩
  · rw [hdiv]
    split_ifs with h
    · exact one_ne_zero
    · exact h
  · unfold dailyAverage
    rw [hdiv]
  · simp [dailyAverage, monthlyTotal]

/-- C3: for every list of per-day totals, `monthlyTotal` is the sum of the daily totals of
the list. -/
theorem monthlyTotal_eq_sum (ds : List DayTotal) :
    monthlyTotal ds = (ds.map (fun d => d.total)).sum := by
  unfold monthlyTotal
  rw [foldl_add_total]
  simp

/-- C4 (code defect): `GET /stats` for a user with no records does not return the
statistics. In the scope of routes/water.js the identifier `sequelize` is unbound, so the
handler answers 500 `Server error` / `sequelize is not defined` and sends no query; the
computation it would have run on the empty result gives `monthlyTotal = 0`,
`dailyAverage = 0` and `bestDay.total = 0`. -/
theorem getStats_no_records_server_error (thirtyDaysAgo today : String) (user : User)
    (req : Request) (users : List User) :
    (getStatsHandler waterModuleScope thirtyDaysAgo today user req
        { users := users, intakes := [] }).response
      = { status := 500, body := .serverError "Server error" "sequelize is not defined" } ∧
    (getStatsHandler waterModuleScope thirtyDaysAgo today user req
        { users := users, intakes := [] }).storeOps = [] ∧
    groupedDailyTotals [] user.id thirtyDaysAgo today = [] ∧
    (computeStats []).monthlyTotal = 0 ∧ (computeStats []).dailyAverage = 0 ∧
    (computeStats []).bestDay.total = 0 := by
  refine ⟨rfl, rfl, rfl, rfl, ?_, rfl⟩
  simp [computeStats, dailyAverage, monthlyTotal]

/-- C5 (code defect): alice logs 250 through `POST /water` (answered 200, the record with
amount 250 is stored), then requests `GET /water/stats` with the same token: the request
passes `auth`, the handler runs and answers 500 `Server error` /
`sequelize is not defined` instead of the statistics, so no `monthlyTotal` is returned. -/
theorem getStats_after_logging_250_server_error :
    (postWaterRoute aliceVerify { date := "2024-03-01", time := "10:00:00" }
        (aliceRequest (some 250)) { users := [alice], intakes := [] }).response.status = 200 ∧
    (postWaterRoute aliceVerify { date := "2024-03-01", time := "10:00:00" }
        (aliceRequest (some 250)) { users := [alice], intakes := [] }).db.intakes
      = [{ id := 1, UserId := 1, amount := 250, date := "2024-03-01", time := "10:00:00" }] ∧
    (getStatsRoute aliceVerify "2024-01-31" "2024-03-01" (aliceRequest none)
        (postWaterRoute aliceVerify { date := "2024-03-01", time := "10:00:00" }
          (aliceRequest (some 250)) { users := [alice], intakes := [] }).db).handlerInvoked
      = true ∧
    (getStatsRoute aliceVerify "2024-01-31" "2024-03-01" (aliceRequest none)
        (postWaterRoute aliceVerify { date := "2024-03-01", time := "10:00:00" }
          (aliceRequest (some 250)) { users := [alice], intakes := [] }).db).response
      = { status := 500, body := .serverError "Server error" "sequelize is not defined" } := by
  decide

/-! ## Calendar: the monthly mapping -/

theorem DateMap.get_set (m : DateMap) (k : String) (v : Int) (key : String) :
    (m.set k v).get key = if k = key then some v else m.get key := by
  induction m with
  | nil =>
    simp only [DateMap.set, DateMap.get]
  | cons p rest ih =>
    obtain ⟨k0, v0⟩ := p
    by_cases h : k0 = k
    · subst h
      by_cases h2 : k0 = key
      · simp [DateMap.set, DateMap.get, h2]
      · simp [DateMap.set, DateMap.get, h2]
    · by_cases h2 : k0 = key
      · subst h2
        have h3 : ¬ k = k0 := fun e => h e.symm
        simp [DateMap.set, DateMap.get, h, h3]
      · simp [DateMap.set, DateMap.get, h, h2, ih]

theorem DateMap.set_set (m : DateMap) (k : String) (v w : Int) :
    (m.set k v).set k w = m.set k w := by
  induction m with
  | nil => simp [DateMap.set]
  | cons p rest ih =>
    obtain ⟨k0, v0⟩ := p
    by_cases h : k0 = k
    · simp [DateMap.set, h]
    · simp [DateMap.set, h, ih]

theorem DateMap.mem_keys_iff (m : DateMap) (key : String) :
    key ∈ m.map Prod.fst ↔ m.get key ≠ none := by
  induction m with
  | nil => simp [DateMap.get]
  | cons p rest ih =>
    obtain ⟨k0, v0⟩ := p
    by_cases h : k0 = key
    · simp [DateMap.get, h]
    · have h2 : ¬ key = k0 := fun e => h e.symm
      simp [DateMap.get, h, h2, ih]

theorem DateMap.keys_set_nodup (m : DateMap) (k : String) (v : Int)
    (h : (m.map Prod.fst).Nodup) : ((m.set k v).map Prod.fst).Nodup := by
  induction m with
  | nil => simp [DateMap.set]
  | cons p rest ih =>
    obtain ⟨k0, v0⟩ := p
    simp only [List.map_cons, List.nodup_cons] at h
    by_cases hk : k0 = k
    · simp only [DateMap.set, hk, if_true, List.map_cons, List.nodup_cons]
      rw [← hk]
      exact h
    · simp only [DateMap.set, hk, if_false, List.map_cons, List.nodup_cons]
      refine ⟨?_, ih h.2⟩
      rw [DateMap.mem_keys_iff, DateMap.get_set]
      have hk2 : ¬ k = k0 := fun e => hk e.symm
      simp only [hk2, if_false]
      rw [← DateMap.mem_keys_iff]
      exact h.1

theorem addRecord_eq_set (m : DateMap) (r : IntakeRecord) :
    addRecord m r = m.set r.date (orZero (m.get r.date) + r.amount) := by
  simp only [addRecord]
  cases hg : m.get r.date with
  | none =>
    simp [isFalsy, orZero, DateMap.get_set, DateMap.set_set]
  | some v =>
    by_cases hv : v = 0
    · subst hv
      simp [isFalsy, orZero, DateMap.get_set, DateMap.set_set]
    · have hb : (v == 0) = false := by simpa using hv
      simp [isFalsy, orZero, hb, hg]

theorem addRecord_get (m : DateMap) (r : IntakeRecord) (key : String) :
    (addRecord m r).get key
      = if r.date = key then some (orZero (m.get r.date) + r.amount) else m.get key := by
  rw [addRecord_eq_set, DateMap.get_set]

theorem addRecord_keys_nodup (m : DateMap) (r : IntakeRecord)
    (h : (m.map Prod.fst).Nodup) : ((addRecord m r).map Prod.fst).Nodup := by
  rw [addRecord_eq_set]
  exact DateMap.keys_set_nodup m _ _ h

theorem filter_date_eq_nil (rs : List IntakeRecord) (key : String)
    (h : key ∉ rs.map (fun r => r.date)) : rs.filter (fun r => r.date == key) = [] := by
  rw [List.filter_eq_nil_iff]
  intro r hr hd
  apply h
  rw [List.mem_map]
  exact ⟨r, hr, by simpa using hd⟩

theorem foldl_addRecord_get (rs : List IntakeRecord) (m : DateMap) (key : String) :
    (rs.foldl addRecord m).get key
      = if key ∈ rs.map (fun r => r.date) then
          some (orZero (m.get key)
            + ((rs.filter (fun r => r.date == key)).map (fun r => r.amount)).sum)
        else m.get key := by
  induction rs generalizing m with
  | nil => simp
  | cons r rs ih =>
    rw [List.foldl_cons, ih, addRecord_get]
    by_cases hk : r.date = key
    · subst hk
      by_cases hin : r.date ∈ rs.map (fun r => r.date)
      · simp [hin, orZero, add_assoc]
      · have hnil := filter_date_eq_nil rs r.date hin
        simp [hin, hnil, orZero]
    · have hk2 : ¬ key = r.date := fun e => hk e.symm
      by_cases hin : key ∈ rs.map (fun r => r.date)
      · simp [hin, hk, hk2]
      · simp [hin, hk, hk2]

theorem foldl_addRecord_keys_nodup (rs : List IntakeRecord) (m : DateMap)
    (h : (m.map Prod.fst).Nodup) : ((rs.foldl addRecord m).map Prod.fst).Nodup := by
  induction rs generalizing m with
  | nil => exact h
  | cons r rs ih => exact ih _ (addRecord_keys_nodup m r h)

/-- C6: for every list of intake records, the mapping built by the calendar has exactly
one entry per date that occurs in at least one record (its keys are those dates, each
once), and the value at a date is the sum of the amounts of the records with that date. -/
theorem fetchMonthlyData_keys_and_sums (records : List IntakeRecord) :
    ((fetchMonthlyData records).map Prod.fst).Nodup ∧
    (∀ date, date ∈ (fetchMonthlyData records).map Prod.fst ↔
      ∃ r ∈ records, r.date = date) ∧
    (∀ date, (fetchMonthlyData records).get date =
      if date ∈ records.map (fun r => r.date) then
        some (((records.filter (fun r => r.date == date)).map (fun r => r.amount)).sum)
      else none) := by
  have hget : ∀ date, (fetchMonthlyData records).get date =
      if date ∈ records.map (fun r => r.date) then
        some (((records.filter (fun r => r.date == date)).map (fun r => r.amount)).sum)
      else none := by
    intro date
    unfold fetchMonthlyData
    rw [foldl_addRecord_get]
    simp [DateMap.get, orZero]
  refine ⟨?_, ?_, hget⟩
  · exact foldl_addRecord_keys_nodup records [] (by simp)
  · intro date
    rw [DateMap.mem_keys_iff, hget]
    by_cases hin : date ∈ records.map (fun r => r.date)
    · simp only [hin, if_true]
      rw [List.mem_map] at hin
      simpa using hin
    · simp only [hin, if_false]
      rw [List.mem_map] at hin
      simpa using hin

/-- C7: `getDayColor` classifies a day against the fixed goal 2000. A day whose entry is
at least 2000 is `success` (at or above goal), a day whose entry is positive and below 2000
is `warning` (below goal), a day without an entry is `transparent` (no data). The three
colours are decided by disjoint conditions on `monthlyData[date] || 0` that cover every
case, so exactly one applies; and the colour a signed-in user sees is the same whatever
`dailyWaterGoal` that user has configured. -/
theorem getDayColor_three_way (monthlyData : DateMap) (formattedDate : String) :
    (∀ total, monthlyData.get formattedDate = some total → 2000 ≤ total →
      getDayColor monthlyData formattedDate = .success) ∧
    (∀ total, monthlyData.get formattedDate = some total → 0 < total → total < 2000 →
      getDayColor monthlyData formattedDate = .warning) ∧
    (monthlyData.get formattedDate = none →
      getDayColor monthlyData formattedDate = .transparent) ∧
    (getDayColor monthlyData formattedDate = .success ↔
      2000 ≤ orZero (monthlyData.get formattedDate)) ∧
    (getDayColor monthlyData formattedDate = .warning ↔
      0 < orZero (monthlyData.get formattedDate) ∧
        orZero (monthlyData.get formattedDate) < 2000) ∧
    (getDayColor monthlyData formattedDate = .transparent ↔
      orZero (monthlyData.get formattedDate) ≤ 0) ∧
    (∀ (db : Db) (user : User) (goal : Int) (startDate endDate : String),
      calendarDayColor db { user with dailyWaterGoal := goal } startDate endDate formattedDate
        = calendarDayColor db user startDate endDate formattedDate) := by
  refine ⟨?_, ?_, ?_, ?_, ?_, ?_, ?_⟩
  · intro total hget hge
    have h : (2000 : Int) ≤ total := hge
    simp [getDayColor, hget, orZero, h]
  · intro total hget hpos hlt
    have h : ¬ (2000 : Int) ≤ total := not_le.mpr hlt
    simp [getDayColor, hget, orZero, h, hpos]
  · intro hget
    simp [getDayColor, hget, orZero]
  · simp only [getDayColor]
    split_ifs with h1 h2 <;> simp <;> omega
  · simp only [getDayColor]
    split_ifs with h1 h2 <;> simp <;> omega
  · simp only [getDayColor]
    split_ifs with h1 h2 <;> simp <;> omega
  · intro db user goal startDate endDate
    rfl

/-- C7, on the mapping of a month with one day at 2500 and one at 300: the first is
`success`. -/
theorem getDayColor_three_way_witness :
    DateMap.get [("2024-03-01", 2500), ("2024-03-02", 300)] "2024-03-01" = some 2500 ∧
    (2000 : Int) ≤ 2500 ∧
    getDayColor [("2024-03-01", 2500), ("2024-03-02", 300)] "2024-03-01" = .success :=
  ⟨by decide, by decide,
    (getDayColor_three_way [("2024-03-01", 2500), ("2024-03-02", 300)] "2024-03-01").1
      2500 (by decide) (by decide)⟩

/-! ## Daily total -/

theorem foldl_add_amount (rs : List IntakeRecord) (acc : Int) :
    rs.foldl (fun total record => total + record.amount) acc
      = acc + (rs.map (fun r => r.amount)).sum := by
  induction rs generalizing acc with
  | nil => simp
  | cons r rs ih =>
    rw [List.foldl_cons, ih, List.map_cons, List.sum_cons]
    ring

theorem getTotalIntake_eq_sum (rs : List IntakeRecord) :
    getTotalIntake rs = (rs.map (fun r => r.amount)).sum := by
  unfold getTotalIntake
  rw [foldl_add_amount]
  simp

theorem fetchTodayIntake_eq_sum (rs : List IntakeRecord) :
    fetchTodayIntake rs = (rs.map (fun r => r.amount)).sum := by
  have h : fetchTodayIntake rs = getTotalIntake rs := rfl
  rw [h, getTotalIntake_eq_sum]

/-- C8: after any sequence of `POST /water` requests on an empty ledger (also the empty
sequence), the daily total of a user and a date, as the calendar (`getTotalIntake`) and
the dashboard (`fetchTodayIntake`) compute it, is the sum of the amounts of the records
that listForUserOnDate returns for that user and date; it is 0 when that list is empty,
and 0 after zero calls. -/
theorem dailyTotal_eq_sum_of_list (verify : String → VerifyResult) (users : List User)
    (calls : List (Clock × Request)) (userId : Nat) (date : String) :
    dailyTotal (applyLogs verify calls { users := users, intakes := [] }) userId date
      = ((listForUserOnDate
          (applyLogs verify calls { users := users, intakes := [] }).intakes userId date).map
          (fun r => r.amount)).sum ∧
    fetchTodayIntake (listForUserOnDate
        (applyLogs verify calls { users := users, intakes := [] }).intakes userId date)
      = ((listForUserOnDate
          (applyLogs verify calls { users := users, intakes := [] }).intakes userId date).map
          (fun r => r.amount)).sum ∧
    (listForUserOnDate
        (applyLogs verify calls { users := users, intakes := [] }).intakes userId date = [] →
      dailyTotal (applyLogs verify calls { users := users, intakes := [] }) userId date = 0) ∧
    dailyTotal (applyLogs verify [] { users := users, intakes := [] }) userId date = 0 := by
  refine ⟨getTotalIntake_eq_sum _, fetchTodayIntake_eq_sum _, ?_, rfl⟩
  intro h
  unfold dailyTotal
  rw [h]
  rfl

/-- C8, after alice logged 250 and 500 on 2024-03-01: the list of that day has the two
records and the daily total is 750. -/
theorem dailyTotal_eq_sum_of_list_witness :
    dailyTotal (applyLogs aliceVerify
        [({ date := "2024-03-01", time := "10:00:00" }, aliceRequest (some 250)),
         ({ date := "2024-03-01", time := "09:00:00" }, aliceRequest (some 500))]
        { users := [alice], intakes := [] }) 1 "2024-03-01"
      = ((listForUserOnDate (applyLogs aliceVerify
          [({ date := "2024-03-01", time := "10:00:00" }, aliceRequest (some 250)),
           ({ date := "2024-03-01", time := "09:00:00" }, aliceRequest (some 500))]
          { users := [alice], intakes := [] }).intakes 1 "2024-03-01").map
          (fun r => r.amount)).sum :=
  (dailyTotal_eq_sum_of_list aliceVerify [alice]
    [({ date := "2024-03-01", time := "10:00:00" }, aliceRequest (some 250)),
     ({ date := "2024-03-01", time := "09:00:00" }, aliceRequest (some 500))]
    1 "2024-03-01").1

/-! ## The access gate -/

/-- C9: for every request to a protected route without a token in the `x-auth-token`
header (the header is absent, or empty), `auth` answers 401 with body
`{ msg: "No token, authorization denied" }` and sends nothing to the store; the downstream
handler is not invoked, so the route reads and writes nothing and leaves the store as it
was. -/
theorem auth_no_token_denied (verify : String → VerifyResult)
    (handler : User → Request → Db → HandlerResult) (req : Request) (db : Db)
    (h : req.header "x-auth-token" = none ∨ req.header "x-auth-token" = some "") :
    auth verify db.users req
      = (.respond { status := 401, body := .msg "No token, authorization denied" }, []) ∧
    (protectedRoute verify handler req db).rejected db 401
      "No token, authorization denied" ∧
    (protectedRoute verify handler req db).storeOps = [] := by
  have hauth : auth verify db.users req
      = (.respond { status := 401, body := .msg "No token, authorization denied" }, []) := by
    unfold auth
    rcases h with h | h <;> simp [h, tokenMissing]
  refine ⟨hauth, ?_, ?_⟩
  · unfold RouteOutcome.rejected protectedRoute
    rw [hauth]
    exact ⟨rfl, rfl, rfl⟩
  · unfold protectedRoute
    rw [hauth]

/-- C9, on a request without headers sent to a route whose handler would write: the
answer is 401 and the store is unchanged. -/
theorem auth_no_token_denied_witness :
    anonymousRequest.header "x-auth-token" = none ∧
    (protectedRoute aliceVerify sampleHandler anonymousRequest
        { users := [alice], intakes := [] }).rejected
      { users := [alice], intakes := [] } 401 "No token, authorization denied" ∧
    (protectedRoute aliceVerify sampleHandler anonymousRequest
        { users := [alice], intakes := [] }).storeOps = [] :=
  ⟨rfl,
    (auth_no_token_denied aliceVerify sampleHandler anonymousRequest
      { users := [alice], intakes := [] } (Or.inl rfl)).2⟩

theorem auth_with_token (verify : String → VerifyResult) (users : List User)
    (req : Request) (token : String) (htoken : req.header "x-auth-token" = some token)
    (hne : token ≠ "") :
    auth verify users req =
      match verify token with
      | .tokenExpiredError =>
        (.respond { status := 401, body := .msg "Token has expired" }, [])
      | .jsonWebTokenError =>
        (.respond { status := 401, body := .msg "Invalid token" }, [])
      | .otherError =>
        (.respond { status := 401, body := .msg "Token is not valid" }, [])
      | .decoded none =>
        (.respond { status := 401, body := .msg "Token is not valid" }, [])
      | .decoded (some pu) =>
        match findByPk users pu.id with
        | none =>
          (.respond { status := 401, body := .msg "Token is not valid" },
            [.userFindByPk pu.id])
        | some user => (.next (excludePassword user), [.userFindByPk pu.id]) := by
  unfold auth
  simp [htoken, tokenMissing, hne]

/-- C10: for every request that carries a non-empty token, `auth` answers 401 and does not
invoke the downstream handler when verification fails (expired: `Token has expired`;
malformed: `Invalid token`; any other failure: `Token is not valid`) and when the verified
user id resolves to no stored user (`Token is not valid`); the store is left as it was.
The handler is invoked exactly when verification succeeds and the user exists, and then
it runs with the stored user loaded without its password. -/
theorem auth_unauthorized_unless_verified_user (verify : String → VerifyResult)
    (handler : User → Request → Db → HandlerResult) (req : Request) (db : Db)
    (token : String) (htoken : req.header "x-auth-token" = some token)
    (hne : token ≠ "") :
    (verify token = .tokenExpiredError →
      (protectedRoute verify handler req db).rejected db 401 "Token has expired") ∧
    (verify token = .jsonWebTokenError →
      (protectedRoute verify handler req db).rejected db 401 "Invalid token") ∧
    (verify token = .otherError ∨ verify token = .decoded none →
      (protectedRoute verify handler req db).rejected db 401 "Token is not valid") ∧
    (∀ pu, verify token = .decoded (some pu) → findByPk db.users pu.id = none →
      (protectedRoute verify handler req db).rejected db 401 "Token is not valid") ∧
    ((protectedRoute verify handler req db).handlerInvoked = true ↔
      ∃ pu stored, verify token = .decoded (some pu) ∧
        findByPk db.users pu.id = some stored) ∧
    (∀ pu stored, verify token = .decoded (some pu) →
      findByPk db.users pu.id = some stored →
      (auth verify db.users req).1 = .next (excludePassword stored) ∧
      (excludePassword stored).password = none ∧
      (protectedRoute verify handler req db).response
        = (handler (excludePassword stored) req db).response ∧
      (protectedRoute verify handler req db).db
        = (handler (excludePassword stored) req db).db) := by
  have hauth := auth_with_token verify db.users req token htoken hne
  refine ⟨?_, ?_, ?_, ?_, ?_, ?_⟩
  · intro hv
    rw [hv] at hauth
    unfold RouteOutcome.rejected protectedRoute
    rw [hauth]
    exact ⟨rfl, rfl, rfl⟩
  · intro hv
    rw [hv] at hauth
    unfold RouteOutcome.rejected protectedRoute
    rw [hauth]
    exact ⟨rfl, rfl, rfl⟩
  · intro hv
    unfold RouteOutcome.rejected protectedRoute
    rcases hv with hv | hv
    · rw [hv] at hauth
      rw [hauth]
      exact ⟨rfl, rfl, rfl⟩
    · rw [hv] at hauth
      rw [hauth]
      exact ⟨rfl, rfl, rfl⟩
  · intro pu hv hfind
    rw [hv] at hauth
    simp only [hfind] at hauth
    unfold RouteOutcome.rejected protectedRoute
    rw [hauth]
    exact ⟨rfl, rfl, rfl⟩
  · unfold protectedRoute
    rw [hauth]
    cases hv : verify token with
    | tokenExpiredError => simp
    | jsonWebTokenError => simp
    | otherError => simp
    | decoded user =>
      cases user with
      | none => simp
      | some pu =>
        cases hfind : findByPk db.users pu.id with
        | none => simp [hfind]
        | some stored => simp [hfind]
  · intro pu stored hv hfind
    rw [hv] at hauth
    simp only [hfind] at hauth
    unfold protectedRoute
    rw [hauth]
    exact ⟨rfl, rfl, rfl, rfl⟩

/-- C10, on alice's store: the token issued to alice verifies and her id resolves, so
the handler runs with alice loaded without her password. -/
theorem auth_unauthorized_unless_verified_user_witness :
    (aliceRequest none).header "x-auth-token" = some "token-A" ∧
    "token-A" ≠ "" ∧
    aliceVerify "token-A" = .decoded (some { id := 1, role := "user" }) ∧
    findByPk [alice] 1 = some alice ∧
    (protectedRoute aliceVerify sampleHandler (aliceRequest none)
        { users := [alice], intakes := [] }).response
      = (sampleHandler (excludePassword alice) (aliceRequest none)
          { users := [alice], intakes := [] }).response :=
  ⟨rfl, by decide, rfl, rfl,
    ((auth_unauthorized_unless_verified_user aliceVerify sampleHandler (aliceRequest none)
      { users := [alice], intakes := [] } "token-A" rfl (by decide)).2.2.2.2.2
      { id := 1, role := "user" } alice rfl rfl).2.2.1⟩

/-! ## Admin-only operations -/

theorem findByPk_id (users : List User) (id : Nat) (u : User)
    (h : findByPk users id = some u) : u.id = id := by
  unfold findByPk at h
  have := List.find?_some h
  simpa using this

theorem adminRoute_of_auth_respond (verify : String → VerifyResult)
    (handler : User → Request → Db → HandlerResult) (req : Request) (db : Db)
    (r : Response) (ops : List StoreOp)
    (h : auth verify db.users req = (.respond r, ops)) :
    adminRoute verify handler req db
      = { response := r, db := db, storeOps := ops, handlerInvoked := false } := by
  unfold adminRoute
  rw [h]

theorem protectedRoute_of_auth_respond (verify : String → VerifyResult)
    (handler : User → Request → Db → HandlerResult) (req : Request) (db : Db)
    (r : Response) (ops : List StoreOp)
    (h : auth verify db.users req = (.respond r, ops)) :
    protectedRoute verify handler req db
      = { response := r, db := db, storeOps := ops, handlerInvoked := false } := by
  unfold protectedRoute
  rw [h]

theorem auth_of_verified (verify : String → VerifyResult) (users : List User)
    (req : Request) (token : String) (pu : PayloadUser) (stored : User)
    (htoken : req.header "x-auth-token" = some token) (hne : token ≠ "")
    (hv : verify token = .decoded (some pu)) (hfind : findByPk users pu.id = some stored) :
    auth verify users req = (.next (excludePassword stored), [.userFindByPk pu.id]) := by
  rw [auth_with_token verify users req token htoken hne, hv]
  simp only [hfind]

theorem admin_of_stored (users : List User) (pu : PayloadUser) (stored : User)
    (hfind : findByPk users pu.id = some stored) :
    admin users (excludePassword stored) =
      if stored.role != "admin" then
        (.respond { status := 403, body := .msg "Access denied. Admin privileges required." },
          [.userFindByPk pu.id])
      else (.next (excludePassword stored), [.userFindByPk pu.id]) := by
  have hid : stored.id = pu.id := findByPk_id users pu.id stored hfind
  have hid2 : (excludePassword stored).id = pu.id := hid
  unfold admin
  rw [hid2, hfind]

/-- C11: on every admin-only operation, a request whose token is expired or invalid is
answered 401 by `auth` (`Token has expired`, `Invalid token`) before any role check: the
`admin` middleware and the handler with its inline role check are not run, nothing is
sent to the store, the store is unchanged, and the status is never 403. -/
theorem admin_operation_bad_token_401 (op : AdminOperation)
    (verify : String → VerifyResult)
    (handlers : AdminOperation → User → Request → Db → HandlerResult) (req : Request)
    (db : Db) (token : String) (htoken : req.header "x-auth-token" = some token)
    (hne : token ≠ "")
    (hbad : verify token = .tokenExpiredError ∨ verify token = .jsonWebTokenError) :
    (op.run verify handlers req db).response.status = 401 ∧
    (op.run verify handlers req db).response.status ≠ 403 ∧
    (op.run verify handlers req db).handlerInvoked = false ∧
    (op.run verify handlers req db).storeOps = [] ∧
    (op.run verify handlers req db).db = db ∧
    (verify token = .tokenExpiredError →
      (op.run verify handlers req db).response.body = .msg "Token has expired") ∧
    (verify token = .jsonWebTokenError →
      (op.run verify handlers req db).response.body = .msg "Invalid token") := by
  have hauth := auth_with_token verify db.users req token htoken hne
  rcases hbad with hv | hv
  · rw [hv] at hauth
    have h1 := adminRoute_of_auth_respond verify (handlers op) req db _ _ hauth
    have h2 := protectedRoute_of_auth_respond verify (requireAdminInline (handlers op))
      req db _ _ hauth
    unfold AdminOperation.run
    split_ifs
    · rw [h1]
      simp [hv]
    · rw [h2]
      simp [hv]
  · rw [hv] at hauth
    have h1 := adminRoute_of_auth_respond verify (handlers op) req db _ _ hauth
    have h2 := protectedRoute_of_auth_respond verify (requireAdminInline (handlers op))
      req db _ _ hauth
    unfold AdminOperation.run
    split_ifs
    · rw [h1]
      simp [hv]
    · rw [h2]
      simp [hv]

/-- C11, on the sample store: `DELETE /users/:id` with the expired token is answered
401. -/
theorem admin_operation_bad_token_401_witness :
    (requestWith "token-old" RequestBody.empty).header "x-auth-token" = some "token-old" ∧
    sampleVerify "token-old" = .tokenExpiredError ∧
    (AdminOperation.run .deleteUser sampleVerify (fun _ => sampleHandler)
        (requestWith "token-old" RequestBody.empty)
        { users := [alice, carol], intakes := [] }).response.status = 401 :=
  ⟨rfl, rfl,
    (admin_operation_bad_token_401 .deleteUser sampleVerify (fun _ => sampleHandler)
      (requestWith "token-old" RequestBody.empty) { users := [alice, carol], intakes := [] }
      "token-old" rfl (by decide) (Or.inl rfl)).1⟩

/-- C12: for every admin-only operation and every request whose token is valid for a
stored user whose role is not `admin`, the answer is 403 (`Access denied. Admin
privileges required.` from the `admin` middleware of the water routes, `Not authorized`
from the inline check of the user routes), the body of the handler is not run, and the
Users and IntakeRecords tables are unchanged. -/
theorem admin_operation_non_admin_403 (op : AdminOperation)
    (verify : String → VerifyResult)
    (handlers : AdminOperation → User → Request → Db → HandlerResult) (req : Request)
    (db : Db) (token : String) (pu : PayloadUser) (stored : User)
    (htoken : req.header "x-auth-token" = some token) (hne : token ≠ "")
    (hv : verify token = .decoded (some pu))
    (hfind : findByPk db.users pu.id = some stored) (hrole : stored.role ≠ "admin") :
    (op.run verify handlers req db).response.status = 403 ∧
    (op.run verify handlers req db).db = db ∧
    (op.run verify handlers req db).response.body
      = (if op.isWaterRoute then .msg "Access denied. Admin privileges required."
         else .msg "Not authorized") ∧
    (∀ other : AdminOperation → User → Request → Db → HandlerResult,
      (op.run verify other req db).response = (op.run verify handlers req db).response ∧
      (op.run verify other req db).db = (op.run verify handlers req db).db) := by
  have hauth := auth_of_verified verify db.users req token pu stored htoken hne hv hfind
  have hadmin := admin_of_stored db.users pu stored hfind
  have hb : (stored.role != "admin") = true := by simpa using hrole
  have hb2 : ((excludePassword stored).role != "admin") = true := hb
  rw [hb] at hadmin
  simp only [if_true] at hadmin
  have hwater : ∀ h : User → Request → Db → HandlerResult,
      adminRoute verify h req db =
        { response :=
            { status := 403, body := .msg "Access denied. Admin privileges required." },
          db := db, storeOps := [.userFindByPk pu.id] ++ [.userFindByPk pu.id],
          handlerInvoked := false } := by
    intro h
    unfold adminRoute
    rw [hauth]
    simp only [hadmin]
  have husers : ∀ h : User → Request → Db → HandlerResult,
      protectedRoute verify (requireAdminInline h) req db =
        { response := { status := 403, body := .msg "Not authorized" },
          db := db, storeOps := [.userFindByPk pu.id] ++ [],
          handlerInvoked := true } := by
    intro h
    unfold protectedRoute
    rw [hauth]
    simp only [requireAdminInline, hb2, if_true]
  unfold AdminOperation.run
  by_cases hop : op.isWaterRoute = true
  · simp only [hop, if_true, hwater]
    exact ⟨trivial, trivial, trivial, fun _ => ⟨trivial, trivial⟩⟩
  · simp only [hop, if_false, husers]
    simp

/-- C12, on the sample store: alice, whose role is `user`, calls `PUT /water/admin/:id`
with her valid token and is answered 403; the store is unchanged. -/
theorem admin_operation_non_admin_403_witness :
    sampleVerify "token-A" = .decoded (some { id := 1, role := "user" }) ∧
    findByPk [alice, carol] 1 = some alice ∧ alice.role ≠ "admin" ∧
    (AdminOperation.run .putWaterAdmin sampleVerify (fun _ => sampleHandler)
        (requestWith "token-A" RequestBody.empty)
        { users := [alice, carol], intakes := [] }).response.status = 403 ∧
    (AdminOperation.run .putWaterAdmin sampleVerify (fun _ => sampleHandler)
        (requestWith "token-A" RequestBody.empty)
        { users := [alice, carol], intakes := [] }).db
      = { users := [alice, carol], intakes := [] } :=
  ⟨rfl, rfl, by decide,
    (admin_operation_non_admin_403 .putWaterAdmin sampleVerify (fun _ => sampleHandler)
      (requestWith "token-A" RequestBody.empty) { users := [alice, carol], intakes := [] }
      "token-A" { id := 1, role := "user" } alice rfl (by decide) rfl rfl (by decide)).1,
    (admin_operation_non_admin_403 .putWaterAdmin sampleVerify (fun _ => sampleHandler)
      (requestWith "token-A" RequestBody.empty) { users := [alice, carol], intakes := [] }
      "token-A" { id := 1, role := "user" } alice rfl (by decide) rfl rfl (by decide)).2.1⟩

/-! ## Registration and login -/

theorem createUser_ok (isEmail : String → Bool) (hash : String → String)
    (body : RequestBody) (users : List User) (user : User)
    (h : createUser isEmail hash body users = .ok user) :
    user.role = "user" ∧ user.id = nextUserId users ∧
      user.username = body.username.getD "" ∧ user.email = body.email.getD "" := by
  unfold createUser at h
  dsimp only at h
  split_ifs at h <;> (injection h with h; subst h; exact ⟨rfl, rfl, rfl, rfl⟩)

theorem registerHandler_ok (isEmail : String → Bool) (hash : String → String)
    (sign : PayloadUser → String) (development : Bool) (req : Request) (db : Db)
    (h : (registerHandler isEmail hash sign development req db).response.status = 200) :
    ∃ user : User,
      createUser isEmail hash req.body db.users = .ok user ∧
      (registerHandler isEmail hash sign development req db).db
        = { db with users := db.users ++ [user] } ∧
      (registerHandler isEmail hash sign development req db).response.body
        = .token (sign { id := user.id, role := user.role }) := by
  by_cases h1 : registerValidationErrors isEmail req.body ≠ []
  · simp [registerHandler, h1] at h
  · cases hu : db.users.find? (fun u => u.username == req.body.username.getD "") with
    | some _ => simp [registerHandler, h1, hu] at h
    | none =>
      cases he : db.users.find? (fun u => u.email == req.body.email.getD "") with
      | some _ => simp [registerHandler, h1, hu, he] at h
      | none =>
        cases hc : createUser isEmail hash req.body db.users with
        | error failures => simp [registerHandler, h1, hu, he, hc] at h
        | ok user =>
          refine ⟨user, rfl, ?_, ?_⟩
          · simp [registerHandler, h1, hu, he, hc]
          · simp [registerHandler, h1, hu, he, hc]

theorem registerValidationErrors_role (isEmail : String → Bool) (body : RequestBody)
    (role : Option String) :
    registerValidationErrors isEmail { body with role := role }
      = registerValidationErrors isEmail body := rfl

theorem createUser_role (isEmail : String → Bool) (hash : String → String)
    (body : RequestBody) (users : List User) (role : Option String) :
    createUser isEmail hash { body with role := role } users
      = createUser isEmail hash body users := rfl

theorem registerHandler_role (isEmail : String → Bool) (hash : String → String)
    (sign : PayloadUser → String) (development : Bool) (req : Request) (db : Db)
    (role : Option String) :
    registerHandler isEmail hash sign development
        { req with body := { req.body with role := role } } db
      = registerHandler isEmail hash sign development req db := by
  unfold registerHandler
  dsimp only
  rw [registerValidationErrors_role, createUser_role]

/-- C13: for every registration that succeeds (answered 200), whatever the request sends
as `role`, exactly one user is added to the store, with role `user`, and the payload of
the returned token carries that user's id and the role `user`; the outcome of a
registration does not depend on the `role` field of the body at all. -/
theorem register_role_is_user (isEmail : String → Bool) (hash : String → String)
    (sign : PayloadUser → String) (development : Bool) (req : Request) (db : Db) :
    ((registerHandler isEmail hash sign development req db).response.status = 200 →
      ∃ user : User,
        (registerHandler isEmail hash sign development req db).db
          = { db with users := db.users ++ [user] } ∧
        user.role = "user" ∧
        (registerHandler isEmail hash sign development req db).response.body
          = .token (sign { id := user.id, role := "user" })) ∧
    (∀ role : Option String,
      (registerHandler isEmail hash sign development
          { req with body := { req.body with role := role } } db).response
        = (registerHandler isEmail hash sign development req db).response ∧
      (registerHandler isEmail hash sign development
          { req with body := { req.body with role := role } } db).db
        = (registerHandler isEmail hash sign development req db).db) := by
  refine ⟨?_, fun role => ?_⟩
  swap
  · rw [registerHandler_role]
    exact ⟨rfl, rfl⟩
  intro h
  obtain ⟨user, hc, hdb, hbody⟩ := registerHandler_ok isEmail hash sign development req db h
  have hrole := (createUser_ok isEmail hash req.body db.users user hc).1
  refine ⟨user, hdb, hrole, ?_⟩
  rw [hbody, hrole]

/-- C13, on the registration of bob, who sends `role: 'admin'`: it succeeds, the stored
user has role `user` and the token is signed for role `user`. -/
theorem register_role_is_user_witness :
    (registerHandler sampleIsEmail sampleHash sampleSign false
        (requestWith "" bobRegistration) { users := [alice], intakes := [] }).response.status
      = 200 ∧
    ∃ user : User,
      (registerHandler sampleIsEmail sampleHash sampleSign false
          (requestWith "" bobRegistration) { users := [alice], intakes := [] }).db
        = { users := [alice] ++ [user], intakes := [] } ∧
      user.role = "user" ∧
      (registerHandler sampleIsEmail sampleHash sampleSign false
          (requestWith "" bobRegistration) { users := [alice], intakes := [] }).response.body
        = .token (sampleSign { id := user.id, role := "user" }) :=
  ⟨by decide,
    (register_role_is_user sampleIsEmail sampleHash sampleSign false
      (requestWith "" bobRegistration) { users := [alice], intakes := [] }).1 (by decide)⟩

/-- C14: a registration whose username is the username of a stored user is answered 400
and leaves the store unchanged, whatever its other fields are; when the fields pass the
validators of the route, the answer is the conflict `User already exists`. -/
theorem register_existing_username_conflict (isEmail : String → Bool)
    (hash : String → String) (sign : PayloadUser → String) (development : Bool)
    (req : Request) (db : Db) (existing : User) (hmem : existing ∈ db.users)
    (hname : req.body.username = some existing.username) :
    (registerHandler isEmail hash sign development req db).response.status = 400 ∧
    (registerHandler isEmail hash sign development req db).db = db ∧
    (registerValidationErrors isEmail req.body = [] →
      (registerHandler isEmail hash sign development req db).response.body
        = .msg "User already exists") := by
  by_cases h1 : registerValidationErrors isEmail req.body ≠ []
  · refine ⟨?_, ?_, ?_⟩
    · simp [registerHandler, h1]
    · simp [registerHandler, h1]
    · intro h0
      exact absurd h0 h1
  · have hsome : (db.users.find? (fun u => u.username == req.body.username.getD "")).isSome
        = true := by
      rw [List.find?_isSome]
      exact ⟨existing, hmem, by simp [hname]⟩
    cases hu : db.users.find? (fun u => u.username == req.body.username.getD "") with
    | none => simp [hu] at hsome
    | some found =>
      refine ⟨?_, ?_, ?_⟩
      · simp [registerHandler, h1, hu]
      · simp [registerHandler, h1, hu]
      · intro _
        simp [registerHandler, h1, hu]

/-- C14, on a registration that reuses the username alice with a different e-mail,
password and name: it is answered 400 `User already exists` and the store is unchanged. -/
theorem register_existing_username_conflict_witness :
    alice ∈ [alice, carol] ∧
    (registerHandler sampleIsEmail sampleHash sampleSign false
        (requestWith "" { bobRegistration with username := some "alice" })
        { users := [alice, carol], intakes := [] }).response
      = { status := 400, body := .msg "User already exists" } ∧
    (registerHandler sampleIsEmail sampleHash sampleSign false
        (requestWith "" { bobRegistration with username := some "alice" })
        { users := [alice, carol], intakes := [] }).db
      = { users := [alice, carol], intakes := [] } :=
  ⟨by decide, by decide,
    (register_existing_username_conflict sampleIsEmail sampleHash sampleSign false
      (requestWith "" { bobRegistration with username := some "alice" })
      { users := [alice, carol], intakes := [] } alice (by decide) rfl).2.1⟩

/-- C15 (code defect): a registration whose username is `ab` (2 characters), or has 31
characters, with every other field valid and unique, passes the validators of the route
(they only require a non-empty username); `User.create` then fails the model validator
`len: [3, 30]`, and the catch block answers 500 `Server error` instead of a 400 with
field messages. No user is created. -/
theorem register_short_username_server_error :
    registerValidationErrors sampleIsEmail { bobRegistration with username := some "ab" }
      = [] ∧
    (registerHandler sampleIsEmail sampleHash sampleSign false
        (requestWith "" { bobRegistration with username := some "ab" })
        { users := [alice], intakes := [] }).response
      = { status := 500, body := .serverFailure "Server error" none } ∧
    (registerHandler sampleIsEmail sampleHash sampleSign true
        (requestWith "" { bobRegistration with username := some "ab" })
        { users := [alice], intakes := [] }).response
      = { status := 500,
          body := .serverFailure "Server error"
            (some { type := "SequelizeValidationError", fields := [("username", "len")] }) } ∧
    (registerHandler sampleIsEmail sampleHash sampleSign false
        (requestWith "" { bobRegistration with username := some "ab" })
        { users := [alice], intakes := [] }).db
      = { users := [alice], intakes := [] } ∧
    (registerHandler sampleIsEmail sampleHash sampleSign false
        (requestWith ""
          { bobRegistration with username := some "abcdefghijklmnopqrstuvwxyz01234" })
        { users := [alice], intakes := [] }).response
      = { status := 500, body := .serverFailure "Server error" none } ∧
    (registerHandler sampleIsEmail sampleHash sampleSign false
        (requestWith ""
          { bobRegistration with username := some "abcdefghijklmnopqrstuvwxyz01234" })
        { users := [alice], intakes := [] }).db
      = { users := [alice], intakes := [] } := by
  decide

/-- C16: for every store, a login with the username of a stored user and a password that
does not match the stored hash, and a login with a username that no stored user has (and
any password), get the same response, 400 with body `{ msg: 'Invalid credentials' }`; the
store is unchanged by both. -/
theorem login_failure_uniform (compare : String → String → Bool)
    (sign : PayloadUser → String) (development : Bool) (db : Db)
    (known unknown : Request) (knownName wrongPassword unknownName anyPassword : String)
    (hkn : known.body.username = some knownName)
    (hkp : known.body.password = some wrongPassword)
    (hun : unknown.body.username = some unknownName)
    (hup : unknown.body.password = some anyPassword)
    (hexists : ∃ u ∈ db.users, u.username = knownName)
    (hwrong : ∀ u ∈ db.users, u.username = knownName →
      ∃ hashed, u.password = some hashed ∧ compare wrongPassword hashed = false)
    (hunknown : ∀ u ∈ db.users, u.username ≠ unknownName) :
    (loginHandler compare sign development known db).response
      = { status := 400, body := .msg "Invalid credentials" } ∧
    (loginHandler compare sign development unknown db).response
      = { status := 400, body := .msg "Invalid credentials" } ∧
    (loginHandler compare sign development known db).response
      = (loginHandler compare sign development unknown db).response ∧
    (loginHandler compare sign development known db).db = db ∧
    (loginHandler compare sign development unknown db).db = db := by
  have hknown : (loginHandler compare sign development known db).response
      = { status := 400, body := .msg "Invalid credentials" } ∧
      (loginHandler compare sign development known db).db = db := by
    cases hf : db.users.find? (fun u => u.username == knownName) with
    | none =>
      obtain ⟨u, hu, hname⟩ := hexists
      have := List.find?_eq_none.mp hf u hu
      simp [hname] at this
    | some user =>
      have hmem : user ∈ db.users := List.mem_of_find?_eq_some hf
      have hname : user.username = knownName := by
        have := List.find?_some hf
        simpa using this
      obtain ⟨hashed, hpw, hcmp⟩ := hwrong user hmem hname
      simp [loginHandler, hkn, hkp, hf, hpw, hcmp]
  have hunk : (loginHandler compare sign development unknown db).response
      = { status := 400, body := .msg "Invalid credentials" } ∧
      (loginHandler compare sign development unknown db).db = db := by
    have hf : db.users.find? (fun u => u.username == unknownName) = none := by
      rw [List.find?_eq_none]
      intro u hu
      simpa using hunknown u hu
    simp [loginHandler, hun, hup, hf]
  exact ⟨hknown.1, hunk.1, hknown.1.trans hunk.1.symm, hknown.2, hunk.2⟩

/-- C16, on the sample store: alice with a wrong password and the unknown user mallory
get the same response. -/
theorem login_failure_uniform_witness :
    (∃ u ∈ [alice, carol], u.username = "alice") ∧
    (loginHandler sampleCompare sampleSign false
        (requestWith "" { RequestBody.empty with
          username := some "alice", password := some "wrong" })
        { users := [alice, carol], intakes := [] }).response
      = (loginHandler sampleCompare sampleSign false
        (requestWith "" { RequestBody.empty with
          username := some "mallory", password := some "secret1" })
        { users := [alice, carol], intakes := [] }).response :=
  ⟨⟨alice, by decide, rfl⟩,
    (login_failure_uniform sampleCompare sampleSign false
      { users := [alice, carol], intakes := [] }
      (requestWith "" { RequestBody.empty with
        username := some "alice", password := some "wrong" })
      (requestWith "" { RequestBody.empty with
        username := some "mallory", password := some "secret1" })
      "alice" "wrong" "mallory" "secret1" rfl rfl rfl rfl ⟨alice, by decide, rfl⟩
      (by decide) (by decide)).2.2.1⟩

/-! ## Self-service profile update -/

theorem putMeHandler_db (user : User) (req : Request) (db : Db) :
    (putMeHandler user req db).db = db ∨
    ∃ (firstName lastName : String) (middleName gender : Option String)
      (goal : Option (Option Int)),
      (putMeHandler user req db).db =
        { db with users := db.users.map (fun u =>
            if u.id == user.id then
              { u with
                firstName := firstName, lastName := lastName, middleName := middleName,
                gender := gender.getD u.gender,
                dailyWaterGoal :=
                  match goal with
                  | some (some n) => n
                  | _ => u.dailyWaterGoal }
            else u) } := by
  by_cases h1 : putMeValidationErrors req.body ≠ []
  · left
    simp [putMeHandler, h1]
  · by_cases h2 : updateModelFailures (req.body.firstName.getD "")
        (req.body.lastName.getD "") (truthyText req.body.middleName)
        (if req.body.dailyWaterGoal.truthy then some (integerOf req.body.dailyWaterGoal)
          else none) ≠ []
    · left
      simp only [putMeHandler]
      rw [if_neg h1, if_pos h2]
    · right
      refine ⟨req.body.firstName.getD "", req.body.lastName.getD "",
        truthyText req.body.middleName, truthyText req.body.gender,
        (if req.body.dailyWaterGoal.truthy then some (integerOf req.body.dailyWaterGoal)
          else none), ?_⟩
      simp only [putMeHandler]
      rw [if_neg h1, if_neg h2]
      split_ifs <;> rfl

/-- C17: the self-service update `PUT /users/me`, for every request body (also one that
carries `role`, `username`, `email`, `password` or `id`), keeps the users in place and
leaves `id`, `username`, `email`, `password` and `role` of every user as they were, leaves
every user other than the caller unchanged, and does not touch the intake records; the
outcome does not depend on the `role`, `username`, `email`, `password` and `id` fields of
the body. Through the route, the store is unchanged or is the store that the handler
leaves for the authenticated caller. -/
theorem putMe_changes_only_profile (user : User) (req : Request) (db : Db) :
    List.Forall₂ (selfUpdateFrame user.id) db.users (putMeHandler user req db).db.users ∧
    (putMeHandler user req db).db.intakes = db.intakes ∧
    (∀ (role username email password : Option String) (id : Option Nat),
      (putMeHandler user
          { req with body := { req.body with
              role := role, username := username, email := email, password := password,
              id := id } } db).db
        = (putMeHandler user req db).db) ∧
    (∀ verify : String → VerifyResult,
      (putMeRoute verify req db).db = db ∨
      ∃ caller ops, auth verify db.users req = (.next caller, ops) ∧
        (putMeRoute verify req db).db = (putMeHandler caller req db).db) := by
  refine ⟨?_, ?_, ?_, ?_⟩
  · rcases putMeHandler_db user req db with h | ⟨f, l, m, g, goal, h⟩
    · rw [h, List.forall₂_same]
      intro u _
      exact ⟨rfl, rfl, rfl, rfl, rfl, fun _ => rfl⟩
    · rw [h]
      dsimp only
      rw [List.forall₂_map_right_iff, List.forall₂_same]
      intro u _
      by_cases hid : u.id = user.id
      · have hb : (u.id == user.id) = true := by simpa using hid
        simp only [hb, if_true]
        exact ⟨rfl, rfl, rfl, rfl, rfl, fun hne => absurd hid hne⟩
      · have hb : (u.id == user.id) = false := by simpa using hid
        simp only [hb]
        exact ⟨rfl, rfl, rfl, rfl, rfl, fun _ => rfl⟩
  · rcases putMeHandler_db user req db with h | ⟨f, l, m, g, goal, h⟩
    · rw [h]
    · rw [h]
  · intro role username email password id
    have hv : putMeValidationErrors
        { req.body with
          role := role, username := username, email := email, password := password,
          id := id } = putMeValidationErrors req.body := rfl
    unfold putMeHandler
    dsimp only
    rw [hv]
  · intro verify
    unfold putMeRoute protectedRoute
    rcases hauth : auth verify db.users req with ⟨result, ops⟩
    cases result with
    | respond r => exact Or.inl rfl
    | next caller => exact Or.inr ⟨caller, ops, rfl, rfl⟩

/-! ## Amounts: the integer pattern and parseInt -/

theorem isDigit_not_isWhitespace (c : Char) (h : c.isDigit = true) :
    c.isWhitespace = false := by
  cases hw : c.isWhitespace with
  | false => rfl
  | true =>
    simp only [Char.isWhitespace, Bool.or_eq_true, decide_eq_true_eq] at hw
    rcases hw with ((rfl | rfl) | rfl) | rfl <;> exact absurd h (by decide)

theorem takeWhile_of_all (p : Char → Bool) (l : List Char) (h : l.all p = true) :
    l.takeWhile p = l := by
  induction l with
  | nil => rfl
  | cons c rest ih =>
    simp only [List.all_cons, Bool.and_eq_true] at h
    simp only [List.takeWhile_cons, h.1, if_true, ih h.2]

theorem numberValueNat_of_le (m : Nat) (h : m ≤ 9007199254740992) :
    numberValueNat m = m := by
  unfold numberValueNat
  rw [if_pos h]

theorem signedValue_numberValueNat (negative : Bool) (d : Nat) :
    signedValue negative (numberValueNat d) = numberValue (signedValue negative d) := by
  cases negative with
  | false =>
    have hneg : decide (((d : Nat) : Int) < 0) = false := by simp
    simp only [numberValue, signedValue, Bool.false_eq_true, if_false, Int.natAbs_ofNat, hneg]
  | true =>
    by_cases hd : d = 0
    · subst hd
      simp [numberValue, signedValue, numberValueNat_of_le]
    · have hneg : decide (-((d : Nat) : Int) < 0) = true := by
        simp only [decide_eq_true_eq]
        omega
      simp only [numberValue, signedValue, if_true, Int.natAbs_neg, Int.natAbs_ofNat, hneg]

theorem numberValue_of_le (n : Int) (h : n.natAbs ≤ 9007199254740992) :
    numberValue n = n := by
  unfold numberValue
  rw [numberValueNat_of_le _ h]
  unfold signedValue
  by_cases hn : n < 0
  · simp only [hn, decide_True, if_true]
    omega
  · simp only [hn, decide_False, Bool.false_eq_true, if_false]
    omega

theorem parseIntText_of_integerLiteral (text : String) (n : Int)
    (h : integerLiteral text = some n) : parseIntText text = some (numberValue n) := by
  unfold integerLiteral at h
  unfold parseIntText
  generalize text.toList = cs at h
  cases cs with
  | nil => simp [splitSign] at h
  | cons c rest =>
    by_cases hminus : c = '-'
    · subst hminus
      have hs : splitSign ('-' :: rest) = (true, rest) := by simp [splitSign]
      have hd : List.dropWhile Char.isWhitespace ('-' :: rest) = '-' :: rest := by
        rw [List.dropWhile_cons_of_neg (by decide)]
      rw [hs] at h
      rw [hd, hs]
      dsimp only at h ⊢
      split_ifs at h with hc
      rw [takeWhile_of_all _ _ hc.2, if_neg hc.1]
      injection h with h
      rw [← h, signedValue_numberValueNat]
    · by_cases hplus : c = '+'
      · subst hplus
        have hs : splitSign ('+' :: rest) = (false, rest) := by simp [splitSign]
        have hd : List.dropWhile Char.isWhitespace ('+' :: rest) = '+' :: rest := by
          rw [List.dropWhile_cons_of_neg (by decide)]
        rw [hs] at h
        rw [hd, hs]
        dsimp only at h ⊢
        split_ifs at h with hc
        rw [takeWhile_of_all _ _ hc.2, if_neg hc.1]
        injection h with h
        rw [← h, signedValue_numberValueNat]
      · have hs : splitSign (c :: rest) = (false, c :: rest) := by
          simp [splitSign, hminus, hplus]
        rw [hs] at h
        dsimp only at h
        split_ifs at h with hc
        have hdigit : c.isDigit = true := by
          have := hc.2
          simp only [List.all_cons, Bool.and_eq_true] at this
          exact this.1
        have hd : List.dropWhile Char.isWhitespace (c :: rest) = c :: rest := by
          rw [List.dropWhile_cons_of_neg]
          simp [isDigit_not_isWhitespace c hdigit]
        rw [hd, hs]
        dsimp only
        rw [takeWhile_of_all _ _ hc.2, if_neg hc.1]
        injection h with h
        rw [← h, signedValue_numberValueNat]

theorem parseIntJson_of_integerOf (value : JsonValue) (n : Int)
    (h : integerOf value = some n) :
    ∃ m, parseIntJson value = some m ∧ (n.natAbs ≤ 9007199254740992 → m = n) := by
  cases value with
  | missing => simp [integerOf] at h
  | null => simp [integerOf] at h
  | bool b => simp [integerOf] at h
  | int m =>
    simp only [integerOf, Option.some.injEq] at h
    exact ⟨n, by simp [parseIntJson, parseInt, h], fun _ => rfl⟩
  | number text =>
    exact ⟨numberValue n, parseIntText_of_integerLiteral text n h, numberValue_of_le n⟩
  | str text =>
    exact ⟨numberValue n, parseIntText_of_integerLiteral text n h, numberValue_of_le n⟩

theorem parseIntJson_of_integerOf_le (value : JsonValue) (n : Int)
    (h : integerOf value = some n) (hle : n.natAbs ≤ 9007199254740992) :
    parseIntJson value = some n := by
  obtain ⟨m, hm, heq⟩ := parseIntJson_of_integerOf value n h
  rw [hm, heq hle]

theorem isInt_iff (min : Int) (value : JsonValue) :
    isInt min value = true ↔ ∃ n, integerOf value = some n ∧ min ≤ n := by
  cases value with
  | missing => simp [isInt, integerOf]
  | null => simp [isInt, integerOf]
  | bool b => simp [isInt, integerOf]
  | int m => simp [isInt, integerOf]
  | number text =>
    cases h : integerLiteral text <;> simp [isInt, integerOf, h]
  | str text =>
    cases h : integerLiteral text <;> simp [isInt, integerOf, h]

/-! ## Logging intakes -/

theorem postWaterHandler_rejected (now : Clock) (user : User) (req : Request) (db : Db)
    (h : isInt 1 req.body.amount = false) :
    (postWaterHandler now user req db).response
      = { status := 400,
          body := .validationErrors ["Amount is required and must be positive"] } ∧
    (postWaterHandler now user req db).db = db := by
  simp [postWaterHandler, h]

theorem postWaterHandler_parsed (now : Clock) (user : User) (req : Request) (db : Db)
    (m : Int) (hint : isInt 1 req.body.amount = true)
    (hparse : parseIntJson req.body.amount = some m) :
    (postWaterHandler now user req db).response
      = { status := 200,
          body := .record
            { id := nextId db.intakes, UserId := user.id, amount := m, date := now.date,
              time := now.time } } ∧
    (postWaterHandler now user req db).db
      = { db with intakes := db.intakes ++
          [{ id := nextId db.intakes, UserId := user.id, amount := m, date := now.date,
             time := now.time }] } := by
  simp [postWaterHandler, hint, hparse]

theorem postWaterHandler_created (now : Clock) (user : User) (req : Request) (db : Db)
    (n : Int) (hn : integerOf req.body.amount = some n) (hpos : 1 ≤ n)
    (hle : n ≤ 9007199254740992) :
    (postWaterHandler now user req db).response
      = { status := 200,
          body := .record
            { id := nextId db.intakes, UserId := user.id, amount := n, date := now.date,
              time := now.time } } ∧
    (postWaterHandler now user req db).db
      = { db with intakes := db.intakes ++
          [{ id := nextId db.intakes, UserId := user.id, amount := n, date := now.date,
             time := now.time }] } := by
  have hint : isInt 1 req.body.amount = true := (isInt_iff 1 _).mpr ⟨n, hn, hpos⟩
  have hparse := parseIntJson_of_integerOf_le _ n hn (by omega)
  exact postWaterHandler_parsed now user req db n hint hparse

theorem postWaterHandler_accepted (now : Clock) (user : User) (req : Request) (db : Db)
    (hint : isInt 1 req.body.amount = true) :
    ∃ m, (postWaterHandler now user req db).response
        = { status := 200,
            body := .record
              { id := nextId db.intakes, UserId := user.id, amount := m, date := now.date,
                time := now.time } } ∧
      (postWaterHandler now user req db).db
        = { db with intakes := db.intakes ++
            [{ id := nextId db.intakes, UserId := user.id, amount := m, date := now.date,
               time := now.time }] } := by
  obtain ⟨n, hn, _⟩ := (isInt_iff 1 _).mp hint
  obtain ⟨m, hm, _⟩ := parseIntJson_of_integerOf _ n hn
  exact ⟨m, postWaterHandler_parsed now user req db m hint hm⟩

/-- C18, as stated, fails for the amount `'9007199254740993'`, which is a positive integer
(2^53 + 1): alice sends it to `POST /water`, the validator accepts it and the answer is 200,
but the record that is created and stored has the amount `9007199254740992`, not the
amount that was sent: `parseInt` returns a double, and 2^53 + 1 is not one. -/
theorem postWater_large_amount_rounded_counterexample :
    integerOf (.str "9007199254740993") = some 9007199254740993 ∧
    (postWaterHandler { date := "2024-03-01", time := "10:00:00" } alice
        (requestWith "token-A" { RequestBody.empty with amount := .str "9007199254740993" })
        { users := [alice], intakes := [] }).response
      = { status := 200,
          body := .record
            { id := 1, UserId := 1, amount := 9007199254740992, date := "2024-03-01",
              time := "10:00:00" } } ∧
    (postWaterHandler { date := "2024-03-01", time := "10:00:00" } alice
        (requestWith "token-A" { RequestBody.empty with amount := .str "9007199254740993" })
        { users := [alice], intakes := [] }).db.intakes
      = [{ id := 1, UserId := 1, amount := 9007199254740992, date := "2024-03-01",
           time := "10:00:00" }] ∧
    (9007199254740992 : Int) ≠ 9007199254740993 := by
  decide

/-- C18 (amended): `POST /water` accepts an amount only if it is a positive integer. The
response is 400 exactly when the amount denotes no integer (the field is missing, or the
value is null, a boolean, a number or a string that is not an integer) or denotes an
integer that is zero or negative, and the store is then unchanged. When the amount denotes
an integer `n` with `1 <= n <= 2^53 = 9007199254740992`, the response is 200 and exactly
one record is added, with amount `n`, the caller as owner and the server's date and time.
A missing field denotes no integer and the number `n` denotes `n`. -/
theorem postWater_accepts_only_positive_integer (now : Clock) (user : User)
    (req : Request) (db : Db) :
    ((integerOf req.body.amount = none ∨
        ∃ n, integerOf req.body.amount = some n ∧ n ≤ 0) →
      (postWaterHandler now user req db).response.status = 400 ∧
      (postWaterHandler now user req db).db = db) ∧
    ((postWaterHandler now user req db).response.status = 400 →
      integerOf req.body.amount = none ∨
        ∃ n, integerOf req.body.amount = some n ∧ n ≤ 0) ∧
    (∀ n, integerOf req.body.amount = some n → 1 ≤ n → n ≤ 9007199254740992 →
      (postWaterHandler now user req db).response
        = { status := 200,
            body := .record
              { id := nextId db.intakes, UserId := user.id, amount := n, date := now.date,
                time := now.time } } ∧
      (postWaterHandler now user req db).db
        = { db with intakes := db.intakes ++
            [{ id := nextId db.intakes, UserId := user.id, amount := n, date := now.date,
               time := now.time }] }) ∧
    integerOf .missing = none ∧ (∀ n : Int, integerOf (.int n) = some n) := by
  refine ⟨?_, ?_,
    fun n hn hpos hle => postWaterHandler_created now user req db n hn hpos hle,
    rfl, fun _ => rfl⟩
  · intro h
    have hint : isInt 1 req.body.amount = false := by
      cases hb : isInt 1 req.body.amount with
      | false => rfl
      | true =>
        obtain ⟨m, hm, hle⟩ := (isInt_iff 1 _).mp hb
        rcases h with h | ⟨n, hn, hn0⟩
        · rw [h] at hm
          exact absurd hm (by simp)
        · rw [hn] at hm
          injection hm with hm
          omega
    have := postWaterHandler_rejected now user req db hint
    exact ⟨by rw [this.1], this.2⟩
  · intro h400
    cases hb : isInt 1 req.body.amount with
    | true =>
      obtain ⟨m, hm, _⟩ := postWaterHandler_accepted now user req db hb
      rw [hm] at h400
      simp at h400
    | false =>
      cases hv : integerOf req.body.amount with
      | none => exact Or.inl rfl
      | some n =>
        refine Or.inr ⟨n, rfl, ?_⟩
        by_contra hc
        have hpos : 1 ≤ n := by omega
        have htrue := (isInt_iff 1 _).mpr ⟨n, hv, hpos⟩
        rw [hb] at htrue
        exact absurd htrue (by decide)

/-- C18 (amended), on alice's requests: the amounts 0, -5, `2.5`, `"abc"` and a missing
amount are answered 400 and store nothing; the amount 250 stores a record of 250 owned by
alice. -/
theorem postWater_accepts_only_positive_integer_witness :
    (integerOf (aliceRequest (some 0)).body.amount = none ∨
      ∃ n, integerOf (aliceRequest (some 0)).body.amount = some n ∧ n ≤ 0) ∧
    (postWaterHandler { date := "2024-03-01", time := "10:00:00" } alice
        (aliceRequest (some 0)) { users := [alice], intakes := [] }).response.status = 400 ∧
    (postWaterHandler { date := "2024-03-01", time := "10:00:00" } alice
        (aliceRequest (some (-5))) { users := [alice], intakes := [] }).response.status
      = 400 ∧
    (postWaterHandler { date := "2024-03-01", time := "10:00:00" } alice
        (aliceRequest none) { users := [alice], intakes := [] }).response.status = 400 ∧
    (postWaterHandler { date := "2024-03-01", time := "10:00:00" } alice
        (requestWith "token-A" { RequestBody.empty with amount := .number "2.5" })
        { users := [alice], intakes := [] }).response.status = 400 ∧
    (postWaterHandler { date := "2024-03-01", time := "10:00:00" } alice
        (requestWith "token-A" { RequestBody.empty with amount := .str "abc" })
        { users := [alice], intakes := [] }).response.status = 400 ∧
    integerOf (aliceRequest (some 250)).body.amount = some 250 ∧
    (postWaterHandler { date := "2024-03-01", time := "10:00:00" } alice
        (aliceRequest (some 250)) { users := [alice], intakes := [] }).db
      = { users := [alice],
          intakes :=
            [{ id := 1, UserId := 1, amount := 250, date := "2024-03-01",
               time := "10:00:00" }] } :=
  ⟨Or.inr ⟨0, rfl, le_refl _⟩,
    ((postWater_accepts_only_positive_integer { date := "2024-03-01", time := "10:00:00" }
      alice (aliceRequest (some 0)) { users := [alice], intakes := [] }).1
      (Or.inr ⟨0, rfl, le_refl _⟩)).1,
    by decide, by decide, by decide, by decide, rfl,
    ((postWater_accepts_only_positive_integer { date := "2024-03-01", time := "10:00:00" }
      alice (aliceRequest (some 250)) { users := [alice], intakes := [] }).2.2.1
      250 rfl (by decide) (by decide)).2⟩

/-- C19: on `POST /water` the stored date, time and owner do not come from the client. Two
requests by the same authenticated user at the same server instant with the same amount,
whatever their other body fields (`date`, `time`, `userId`, ...) are, get the same
response and leave the same store; that store is the old one, or the old one with one
more record whose date and time are the server's and whose owner is the authenticated
user. -/
theorem postWater_stamps_server_time (verify : String → VerifyResult) (now : Clock)
    (req1 req2 : Request) (db : Db) (user : User) (ops1 ops2 : List StoreOp)
    (h1 : auth verify db.users req1 = (.next user, ops1))
    (h2 : auth verify db.users req2 = (.next user, ops2))
    (hamount : req1.body.amount = req2.body.amount) :
    (postWaterRoute verify now req1 db).response
      = (postWaterRoute verify now req2 db).response ∧
    (postWaterRoute verify now req1 db).db = (postWaterRoute verify now req2 db).db ∧
    ((postWaterRoute verify now req1 db).db = db ∨
      ∃ n, (postWaterRoute verify now req1 db).db
        = { db with intakes := db.intakes ++
            [{ id := nextId db.intakes, UserId := user.id, amount := n, date := now.date,
               time := now.time }] }) := by
  have hr1 : postWaterRoute verify now req1 db =
      { response := (postWaterHandler now user req1 db).response,
        db := (postWaterHandler now user req1 db).db,
        storeOps := ops1 ++ (postWaterHandler now user req1 db).storeOps,
        handlerInvoked := true } := by
    unfold postWaterRoute protectedRoute
    rw [h1]
  have hr2 : postWaterRoute verify now req2 db =
      { response := (postWaterHandler now user req2 db).response,
        db := (postWaterHandler now user req2 db).db,
        storeOps := ops2 ++ (postWaterHandler now user req2 db).storeOps,
        handlerInvoked := true } := by
    unfold postWaterRoute protectedRoute
    rw [h2]
  have hsame : (postWaterHandler now user req1 db).response
        = (postWaterHandler now user req2 db).response ∧
      (postWaterHandler now user req1 db).db = (postWaterHandler now user req2 db).db := by
    unfold postWaterHandler
    rw [hamount]
    exact ⟨rfl, rfl⟩
  rw [hr1, hr2]
  refine ⟨hsame.1, hsame.2, ?_⟩
  dsimp only
  cases hb : isInt 1 req1.body.amount with
  | false => exact Or.inl (postWaterHandler_rejected now user req1 db hb).2
  | true =>
    obtain ⟨m, hm⟩ := postWaterHandler_accepted now user req1 db hb
    exact Or.inr ⟨m, hm.2⟩

/-- C19, on two requests of alice with amount 250, one of which also sends
`date: '1999-01-01'`, `time: '00:00:00'` and `userId: 2`: both store the same record,
dated by the server and owned by alice. -/
theorem postWater_stamps_server_time_witness :
    (postWaterRoute sampleVerify { date := "2024-03-01", time := "10:00:00" }
        (requestWith "token-A" { RequestBody.empty with amount := .int 250 })
        { users := [alice, carol], intakes := [] }).db
      = (postWaterRoute sampleVerify { date := "2024-03-01", time := "10:00:00" }
        (requestWith "token-A" { RequestBody.empty with
          amount := .int 250, date := some "1999-01-01", time := some "00:00:00",
          userId := some 2 })
        { users := [alice, carol], intakes := [] }).db ∧
    (postWaterRoute sampleVerify { date := "2024-03-01", time := "10:00:00" }
        (requestWith "token-A" { RequestBody.empty with
          amount := .int 250, date := some "1999-01-01", time := some "00:00:00",
          userId := some 2 })
        { users := [alice, carol], intakes := [] }).db.intakes
      = [{ id := 1, UserId := 1, amount := 250, date := "2024-03-01",
           time := "10:00:00" }] :=
  ⟨(postWater_stamps_server_time sampleVerify { date := "2024-03-01", time := "10:00:00" }
      (requestWith "token-A" { RequestBody.empty with amount := .int 250 })
      (requestWith "token-A" { RequestBody.empty with
        amount := .int 250, date := some "1999-01-01", time := some "00:00:00",
        userId := some 2 })
      { users := [alice, carol], intakes := [] } (excludePassword alice)
      [.userFindByPk 1] [.userFindByPk 1] rfl rfl rfl).2.1,
    by decide⟩

/-- C20, as stated, fails for a date that has the shape `YYYY-MM-DD` and names no day:
the administrator carol sends `POST /water/admin` for user 1 (alice) with amount 300, time
`08:15:00` and the date `2024-13-45`, which passes the validator. The answer is 200, but
the record that is created has the date `Invalid date`, not the date that was supplied.
Likewise the amount `'9007199254740993'` with the date `2024-03-01` is stored as
`9007199254740992`. -/
theorem postWaterAdmin_invalid_date_counterexample :
    dateRegexTest "2024-13-45" = true ∧ timeRegexTest "08:15:00" = true ∧
    (postWaterAdminRoute sampleVerify
        (requestWith "token-C" { RequestBody.empty with
          amount := .int 300, userId := some 1, date := some "2024-13-45",
          time := some "08:15:00" })
        { users := [alice, carol], intakes := [] }).response
      = { status := 200,
          body := .record
            { id := 1, UserId := 1, amount := 300, date := "Invalid date",
              time := "08:15:00" } } ∧
    (postWaterAdminRoute sampleVerify
        (requestWith "token-C" { RequestBody.empty with
          amount := .int 300, userId := some 1, date := some "2024-13-45",
          time := some "08:15:00" })
        { users := [alice, carol], intakes := [] }).db.intakes
      = [{ id := 1, UserId := 1, amount := 300, date := "Invalid date",
           time := "08:15:00" }] ∧
    integerOf (.str "9007199254740993") = some 9007199254740993 ∧
    (postWaterAdminRoute sampleVerify
        (requestWith "token-C" { RequestBody.empty with
          amount := .str "9007199254740993", userId := some 1, date := some "2024-03-01",
          time := some "08:15:00" })
        { users := [alice, carol], intakes := [] }).db.intakes
      = [{ id := 1, UserId := 1, amount := 9007199254740992, date := "2024-03-01",
           time := "08:15:00" }] := by
  decide

/-- C20 (amended): `POST /water/admin` by an administrator (valid token of a stored user
with role `admin`) with a valid amount (an integer `n` with `1 <= n <= 2^53`), a date of
shape `YYYY-MM-DD` and a time of shape `HH:MM:SS`: when the target `userId` resolves to no
stored user the answer is 404 `User not found` and the store is unchanged; when it
resolves to a stored user the answer is 200 and exactly one record is added, with the
supplied `userId`, amount and time, whose date is the supplied date when that names a day
of the calendar and the text `Invalid date` when it does not. -/
theorem postWaterAdmin_not_found_or_created (verify : String → VerifyResult)
    (req : Request) (db : Db) (token : String) (pu : PayloadUser) (actor : User)
    (target : Nat) (n : Int) (date time : String)
    (htoken : req.header "x-auth-token" = some token) (hne : token ≠ "")
    (hv : verify token = .decoded (some pu))
    (hactor : findByPk db.users pu.id = some actor) (hrole : actor.role = "admin")
    (huser : req.body.userId = some target)
    (hamount : integerOf req.body.amount = some n) (hpos : 1 ≤ n)
    (hle : n ≤ 9007199254740992)
    (hdate : req.body.date = some date) (hdateOk : dateRegexTest date = true)
    (htime : req.body.time = some time) (htimeOk : timeRegexTest time = true) :
    (findByPk db.users target = none →
      (postWaterAdminRoute verify req db).response
        = { status := 404, body := .msg "User not found" } ∧
      (postWaterAdminRoute verify req db).db = db) ∧
    (∀ owner, findByPk db.users target = some owner →
      (postWaterAdminRoute verify req db).response
        = { status := 200,
            body := .record
              { id := nextId db.intakes, UserId := target, amount := n,
                date := calendarDateOrInvalid date, time := time } } ∧
      (postWaterAdminRoute verify req db).db
        = { db with intakes := db.intakes ++
            [{ id := nextId db.intakes, UserId := target, amount := n,
               date := calendarDateOrInvalid date, time := time }] }) ∧
    (isCalendarDate date = true → calendarDateOrInvalid date = date) ∧
    (isCalendarDate date = false → calendarDateOrInvalid date = "Invalid date") := by
  have hauth := auth_of_verified verify db.users req token pu actor htoken hne hv hactor
  have hadmin := admin_of_stored db.users pu actor hactor
  have hb : (actor.role != "admin") = false := by simp [hrole]
  rw [hb] at hadmin
  simp only [Bool.false_eq_true, if_false] at hadmin
  have hroute : postWaterAdminRoute verify req db =
      { response := (postWaterAdminHandler (excludePassword actor) req db).response,
        db := (postWaterAdminHandler (excludePassword actor) req db).db,
        storeOps := [.userFindByPk pu.id] ++ [.userFindByPk pu.id] ++
          (postWaterAdminHandler (excludePassword actor) req db).storeOps,
        handlerInvoked := true } := by
    unfold postWaterAdminRoute adminRoute
    rw [hauth]
    simp only [hadmin]
  have hint : isInt 1 req.body.amount = true := (isInt_iff 1 _).mpr ⟨n, hamount, hpos⟩
  have hparse := parseIntJson_of_integerOf_le _ n hamount (by omega)
  have herrors : postAdminValidationErrors req.body = [] := by
    simp [postAdminValidationErrors, hint, huser, hdate, hdateOk, htime, htimeOk]
  rw [hroute]
  dsimp only
  refine ⟨?_, ?_, ?_, ?_⟩
  · intro hnone
    simp [postWaterAdminHandler, herrors, huser, hnone]
  · intro owner hsome
    simp [postWaterAdminHandler, herrors, huser, hsome, hparse, hdate, htime]
  · intro hcal
    simp [calendarDateOrInvalid, hcal]
  · intro hcal
    simp [calendarDateOrInvalid, hcal]

/-- C20 (amended), on the sample store: carol, an administrator, logs 300 for user 1
(alice) on 2024-02-29, which adds the record with that date, and for user 99, which is
answered 404 and adds nothing. -/
theorem postWaterAdmin_not_found_or_created_witness :
    findByPk [alice, carol] 2 = some carol ∧ carol.role = "admin" ∧
    findByPk [alice, carol] 1 = some alice ∧ isCalendarDate "2024-02-29" = true ∧
    (postWaterAdminRoute sampleVerify
        (requestWith "token-C" { RequestBody.empty with
          amount := .int 300, userId := some 1, date := some "2024-02-29",
          time := some "08:15:00" })
        { users := [alice, carol], intakes := [] }).db
      = { users := [alice, carol],
          intakes :=
            [{ id := 1, UserId := 1, amount := 300, date := "2024-02-29",
               time := "08:15:00" }] } ∧
    (postWaterAdminRoute sampleVerify
        (requestWith "token-C" { RequestBody.empty with
          amount := .int 300, userId := some 99, date := some "2024-02-29",
          time := some "08:15:00" })
        { users := [alice, carol], intakes := [] }).response
      = { status := 404, body := .msg "User not found" } :=
  ⟨rfl, rfl, rfl, by decide,
    ((postWaterAdmin_not_found_or_created sampleVerify
      (requestWith "token-C" { RequestBody.empty with
        amount := .int 300, userId := some 1, date := some "2024-02-29",
        time := some "08:15:00" })
      { users := [alice, carol], intakes := [] } "token-C" { id := 2, role := "admin" }
      carol 1 300 "2024-02-29" "08:15:00" rfl (by decide) rfl rfl rfl rfl rfl (by decide)
      (by decide) rfl (by decide) rfl (by decide)).2.1 alice rfl).2,
    by decide⟩

/-- The self-service update does change the profile: alice renames herself and sets the
goal 3000; her stored names and goal change, her role and username do not. -/
theorem putMe_updates_profile_example :
    (putMeHandler alice
        (requestWith "token-A" { RequestBody.empty with
          firstName := some "Alicia", lastName := some "Smythe",
          dailyWaterGoal := .int 3000, role := some "admin", username := some "root" })
        { users := [alice, carol], intakes := [] }).db.users
      = [{ alice with firstName := "Alicia", lastName := "Smythe", dailyWaterGoal := 3000 },
         carol] := by
  decide

/-! ## Date and time patterns at the endpoints -/

theorem date_checked_before_query (user : User) (req : Request) (db : Db)
    (h : dateRegexTest req.date = false) :
    (getDateHandler user req db).response.status = 400 ∧
    (getDateHandler user req db).storeOps = [] ∧
    (getAdminUserDateHandler user req db).response.status = 400 ∧
    (getAdminUserDateHandler user req db).storeOps = [] := by
  simp [getDateHandler, getAdminUserDateHandler, h]

theorem postAdmin_patterns_checked (user : User) (req : Request) (db : Db)
    (h : dateRegexTest (req.body.date.getD "") = false ∨
      timeRegexTest (req.body.time.getD "") = false) :
    (postWaterAdminHandler user req db).response.status = 400 ∧
    (postWaterAdminHandler user req db).db = db ∧
    (postWaterAdminHandler user req db).storeOps = [] := by
  have herr : postAdminValidationErrors req.body ≠ [] := by
    unfold postAdminValidationErrors
    rcases h with h | h <;> simp [h]
  simp [postWaterAdminHandler, herr]

/-- C21 (code defect): two endpoints take a date or a time without checking its pattern.
`GET /water/range/abc/xyz` by alice is answered 200 after the query was sent to the store
(with the bounds that the ORM makes of `abc` and `xyz`, whatever the library reads from
such texts); `PUT /water/admin/1` by the administrator carol with the
time `9am` is answered 200 and writes `9am` into the record. Neither string has the
pattern that `GET /date/:date` and `POST /admin` check. -/
theorem range_and_update_skip_pattern_check (fallback : String → String) :
    dateRegexTest "abc" = false ∧ dateRegexTest "xyz" = false ∧
    (getRangeRoute sampleVerify fallback
        { requestWith "token-A" RequestBody.empty with startDate := "abc", endDate := "xyz" }
        sampleDb).response.status = 200 ∧
    (getRangeRoute sampleVerify fallback
        { requestWith "token-A" RequestBody.empty with startDate := "abc", endDate := "xyz" }
        sampleDb).storeOps = [.userFindByPk 1, .intakeFindAll 1] ∧
    timeRegexTest "9am" = false ∧
    (putWaterAdminRoute sampleVerify
        (carolRequest 1 { RequestBody.empty with amount := .int 300, time := some "9am" })
        sampleDb).response.status = 200 ∧
    (putWaterAdminRoute sampleVerify
        (carolRequest 1 { RequestBody.empty with amount := .int 300, time := some "9am" })
        sampleDb).db.intakes
      = [{ id := 1, UserId := 1, amount := 300, date := "2024-03-01", time := "9am" }] :=
  ⟨by decide, by decide, rfl, rfl, by decide, by decide, by decide⟩

/-! ## The ledger invariant -/

/-- C22 (code defect): on an empty ledger alice logs 250 through `POST /water` (200), then
the administrator carol sends `PUT /water/admin/1` with amount 0; the model validator is
`min: 0` and the route has no validator, so the update is answered 200 and the stored
record has amount 0, which is not greater than 0. -/
theorem update_stores_zero_amount :
    (postWaterRoute sampleVerify { date := "2024-03-01", time := "10:00:00" }
        (aliceRequest (some 250)) { users := [alice, carol], intakes := [] }).response.status
      = 200 ∧
    (postWaterRoute sampleVerify { date := "2024-03-01", time := "10:00:00" }
        (aliceRequest (some 250)) { users := [alice, carol], intakes := [] }).db
      = sampleDb ∧
    (putWaterAdminRoute sampleVerify
        (carolRequest 1 { RequestBody.empty with amount := .int 0, time := some "10:00:00" })
        sampleDb).response.status = 200 ∧
    (putWaterAdminRoute sampleVerify
        (carolRequest 1 { RequestBody.empty with amount := .int 0, time := some "10:00:00" })
        sampleDb).db.intakes
      = [{ id := 1, UserId := 1, amount := 0, date := "2024-03-01", time := "10:00:00" }] ∧
    ¬ (∀ r ∈ (putWaterAdminRoute sampleVerify
        (carolRequest 1 { RequestBody.empty with amount := .int 0, time := some "10:00:00" })
        sampleDb).db.intakes, 0 < r.amount) := by
  decide

/-! ## Admin record update -/

theorem putWaterAdminHandler_db (user : User) (req : Request) (db : Db) :
    (putWaterAdminHandler user req db).db = db ∨
    ∃ (record : IntakeRecord) (n : Int) (t : String),
      db.intakes.find? (fun r => some r.id == req.id) = some record ∧
      (putWaterAdminHandler user req db).db =
        { db with intakes := db.intakes.map (fun r =>
            if r.id == record.id then { r with amount := n, time := t } else r) } := by
  unfold putWaterAdminHandler
  cases hf : db.intakes.find? (fun r => some r.id == req.id) with
  | none => exact Or.inl rfl
  | some record =>
    dsimp only
    split_ifs with h1
    · exact Or.inl rfl
    · split
      · rename_i n _
        exact Or.inr ⟨record, n, _, rfl, rfl⟩
      · exact Or.inl rfl

theorem putWaterAdminHandler_body (user : User) (req : Request) (db : Db)
    (date : Option String) (userId : Option Nat) :
    putWaterAdminHandler user
        { req with body := { req.body with date := date, userId := userId } } db
      = putWaterAdminHandler user req db := rfl

/-- C23: `PUT /water/admin/:id` answers 404 `Water intake record not found` and leaves the
store unchanged when no record has that id. In every case the records stay in place, each
keeps its id, owner and date, every record with another id is unchanged (so only the
amount and the time of the addressed record can change), the users are unchanged, and the
outcome does not depend on the `date` and `userId` fields of the body. Through the route
the store is unchanged or is the store the handler leaves. -/
theorem putWaterAdmin_changes_only_amount_time (user : User) (req : Request) (db : Db) :
    ((∀ r ∈ db.intakes, some r.id ≠ req.id) →
      (putWaterAdminHandler user req db).response
        = { status := 404, body := .msg "Water intake record not found" } ∧
      (putWaterAdminHandler user req db).db = db) ∧
    List.Forall₂ (recordUpdateFrame req.id) db.intakes
      (putWaterAdminHandler user req db).db.intakes ∧
    (putWaterAdminHandler user req db).db.users = db.users ∧
    (∀ (date : Option String) (userId : Option Nat),
      (putWaterAdminHandler user
          { req with body := { req.body with date := date, userId := userId } } db).db
        = (putWaterAdminHandler user req db).db) ∧
    (∀ verify : String → VerifyResult,
      (putWaterAdminRoute verify req db).db = db ∨
      ∃ actor, (putWaterAdminRoute verify req db).db
        = (putWaterAdminHandler actor req db).db) := by
  refine ⟨?_, ?_, ?_, ?_, ?_⟩
  · intro hnone
    have hf : db.intakes.find? (fun r => some r.id == req.id) = none := by
      rw [List.find?_eq_none]
      intro r hr
      simpa using hnone r hr
    simp [putWaterAdminHandler, hf]
  · rcases putWaterAdminHandler_db user req db with h | ⟨record, n, t, hf, h⟩
    · rw [h, List.forall₂_same]
      intro r _
      exact ⟨rfl, rfl, rfl, fun _ => rfl⟩
    · have hrec : some record.id = req.id := by
        have := List.find?_some hf
        simpa using this
      rw [h]
      dsimp only
      rw [List.forall₂_map_right_iff, List.forall₂_same]
      intro r _
      by_cases hid : r.id = record.id
      · have hb : (r.id == record.id) = true := by simpa using hid
        simp only [hb, if_true]
        refine ⟨rfl, rfl, rfl, fun hne => ?_⟩
        rw [hid] at hne
        exact absurd hrec hne
      · have hb : (r.id == record.id) = false := by simpa using hid
        simp only [hb]
        exact ⟨rfl, rfl, rfl, fun _ => rfl⟩
  · rcases putWaterAdminHandler_db user req db with h | ⟨record, n, t, _, h⟩
    · rw [h]
    · rw [h]
  · intro date userId
    rw [putWaterAdminHandler_body]
  · intro verify
    unfold putWaterAdminRoute adminRoute
    rcases hauth : auth verify db.users req with ⟨result, ops⟩
    cases result with
    | respond r => exact Or.inl rfl
    | next actor =>
      dsimp only
      rcases hadmin : admin db.users actor with ⟨result2, ops2⟩
      cases result2 with
      | respond r => exact Or.inl rfl
      | next actor2 => exact Or.inr ⟨actor2, rfl⟩

/-- C23, on the sample store: no record has id 7, so the update of record 7 is answered
404 and nothing changes. -/
theorem putWaterAdmin_changes_only_amount_time_witness :
    (∀ r ∈ sampleDb.intakes, some r.id ≠ (carolRequest 7 RequestBody.empty).id) ∧
    (putWaterAdminHandler carol (carolRequest 7 RequestBody.empty) sampleDb).response
      = { status := 404, body := .msg "Water intake record not found" } ∧
    (putWaterAdminHandler carol (carolRequest 7 RequestBody.empty) sampleDb).db = sampleDb :=
  ⟨by decide,
    (putWaterAdmin_changes_only_amount_time carol (carolRequest 7 RequestBody.empty)
      sampleDb).1 (by decide)⟩

/-- The admin update does change the addressed record: carol sets amount 300 and time
`11:30:00` on record 1 and also sends another date and owner, which are ignored. -/
theorem putWaterAdmin_example :
    (putWaterAdminRoute sampleVerify
        (carolRequest 1 { RequestBody.empty with
          amount := .int 300, time := some "11:30:00", date := some "1999-01-01",
          userId := some 2 })
        sampleDb).db.intakes
      = [{ id := 1, UserId := 1, amount := 300, date := "2024-03-01",
           time := "11:30:00" }] := by
  decide

/-! ## Error bodies -/

/-- C24 (code defect): outside development mode the 500 response of `POST /register`
carries no detail (`error` is `undefined`), but the 500 response of `GET /water/stats`
carries `err.message`: its catch block sends `{ msg: 'Server error', error: err.message }`
whatever the mode is, here `sequelize is not defined`. -/
theorem water_500_carries_error_message :
    (registerHandler sampleIsEmail sampleHash sampleSign false
        (requestWith "" { bobRegistration with username := some "ab" }) sampleDb).response
      = { status := 500, body := .serverFailure "Server error" none } ∧
    (getStatsRoute sampleVerify "2024-01-31" "2024-03-01"
        (requestWith "token-A" RequestBody.empty) sampleDb).response
      = { status := 500, body := .serverError "Server error" "sequelize is not defined" } := by
  decide

/-! ## Round trip and range query -/

theorem beforeSave_of_int (n : Int) (date time : String) :
    beforeSave { amount := .int n, date := date, time := time }
      = { amount := .int n, date := date, time := time } := by
  simp [beforeSave]

/-- C25: for a user with no record on the server's current date, a `POST /water` with
amount 500 is answered 200 and the list of that user on that date then holds exactly one
record: amount 500, the current date and time, the user as owner (the `beforeSave` hook
leaves these values as they are); `GET /date/:date` for that date answers 200 with this
list when the date has the shape `YYYY-MM-DD`. -/
theorem logSelf_then_list_round_trip (verify : String → VerifyResult) (now : Clock)
    (req : Request) (db : Db) (user : User) (ops : List StoreOp)
    (hauth : auth verify db.users req = (.next user, ops))
    (hamount : req.body.amount = .int 500)
    (hnone : ∀ r ∈ db.intakes, ¬ (r.UserId = user.id ∧ r.date = now.date)) :
    (postWaterRoute verify now req db).response.status = 200 ∧
    listForUserOnDate (postWaterRoute verify now req db).db.intakes user.id now.date
      = [{ id := nextId db.intakes, UserId := user.id, amount := 500, date := now.date,
           time := now.time }] ∧
    beforeSave { amount := .int 500, date := now.date, time := now.time }
      = { amount := .int 500, date := now.date, time := now.time } ∧
    (dateRegexTest now.date = true →
      ∀ getReq : Request, getReq.date = now.date →
        (getDateHandler user getReq (postWaterRoute verify now req db).db).response
          = { status := 200,
              body := .records
                [{ id := nextId db.intakes, UserId := user.id, amount := 500,
                   date := now.date, time := now.time }] }) := by
  have hn : integerOf req.body.amount = some 500 := by rw [hamount]; rfl
  have hcreated := postWaterHandler_created now user req db 500 hn (by decide) (by decide)
  have hroute : postWaterRoute verify now req db =
      { response := (postWaterHandler now user req db).response,
        db := (postWaterHandler now user req db).db,
        storeOps := ops ++ (postWaterHandler now user req db).storeOps,
        handlerInvoked := true } := by
    unfold postWaterRoute protectedRoute
    rw [hauth]
  have hfilter : db.intakes.filter (fun r => r.UserId == user.id && r.date == now.date)
      = [] := by
    rw [List.filter_eq_nil_iff]
    intro r hr hc
    apply hnone r hr
    simpa using hc
  have hlist : listForUserOnDate (postWaterRoute verify now req db).db.intakes user.id
      now.date
      = [{ id := nextId db.intakes, UserId := user.id, amount := 500, date := now.date,
           time := now.time }] := by
    rw [hroute]
    dsimp only
    rw [hcreated.2]
    unfold listForUserOnDate
    dsimp only
    rw [List.filter_append, hfilter]
    simp
  refine ⟨?_, hlist, beforeSave_of_int 500 now.date now.time, ?_⟩
  · rw [hroute]
    dsimp only
    rw [hcreated.1]
  · intro hdate getReq hget
    unfold getDateHandler
    rw [hget, hdate]
    simp only [Bool.not_true, Bool.false_eq_true, if_false]
    rw [hlist]

/-- C25, on the store with alice and no record: alice logs 500 on 2024-03-02 and the
list of that day is the one new record. -/
theorem logSelf_then_list_round_trip_witness :
    (∀ r ∈ ({ users := [alice, carol], intakes := [] } : Db).intakes,
      ¬ (r.UserId = (excludePassword alice).id ∧ r.date = "2024-03-02")) ∧
    listForUserOnDate (postWaterRoute sampleVerify { date := "2024-03-02", time := "07:45:10" }
        (aliceRequest (some 500)) { users := [alice, carol], intakes := [] }).db.intakes
        (excludePassword alice).id "2024-03-02"
      = [{ id := nextId [], UserId := (excludePassword alice).id, amount := 500,
           date := "2024-03-02", time := "07:45:10" }] :=
  ⟨by decide,
    (logSelf_then_list_round_trip sampleVerify { date := "2024-03-02", time := "07:45:10" }
      (aliceRequest (some 500)) { users := [alice, carol], intakes := [] }
      (excludePassword alice) [.userFindByPk 1] rfl rfl (by decide)).2.1⟩

theorem dateTimeLe_total (a b : IntakeRecord) : dateTimeLe a b ∨ dateTimeLe b a := by
  unfold dateTimeLe
  rcases lt_trichotomy a.date b.date with h | h | h
  · exact Or.inl (Or.inl h)
  · rcases le_total a.time b.time with ht | ht
    · exact Or.inl (Or.inr ⟨h, ht⟩)
    · exact Or.inr (Or.inr ⟨h.symm, ht⟩)
  · exact Or.inr (Or.inl h)

theorem dateTimeLe_trans (a b c : IntakeRecord) (h1 : dateTimeLe a b)
    (h2 : dateTimeLe b c) : dateTimeLe a c := by
  unfold dateTimeLe at h1 h2 ⊢
  rcases h1 with h1 | ⟨e1, t1⟩
  · rcases h2 with h2 | ⟨e2, _⟩
    · exact Or.inl (lt_trans h1 h2)
    · exact Or.inl (e2 ▸ h1)
  · rcases h2 with h2 | ⟨e2, t2⟩
    · exact Or.inl (e1 ▸ h2)
    · exact Or.inr ⟨e1.trans e2, le_trans t1 t2⟩

theorem dateRegexTest_of_isCalendarDate (s : String) (h : isCalendarDate s = true) :
    dateRegexTest s = true := by
  unfold isCalendarDate at h
  rw [Bool.and_eq_true] at h
  exact h.1

theorem dateOnly_of_isCalendarDate (fallback : String → String) (s : String)
    (h : isCalendarDate s = true) : dateOnly fallback s = s := by
  unfold dateOnly calendarDateOrInvalid
  rw [if_pos (dateRegexTest_of_isCalendarDate s h), if_pos h]

theorem listForUserInRange_perm (intakes : List IntakeRecord) (userId : Nat)
    (startDate endDate : String) :
    (listForUserInRange intakes userId startDate endDate).Perm
      (intakes.filter (fun r =>
        r.UserId == userId && decide (startDate ≤ r.date) && decide (r.date ≤ endDate))) :=
  List.perm_insertionSort _ _

theorem listForUserInRange_mem (intakes : List IntakeRecord) (userId : Nat)
    (startDate endDate : String) (r : IntakeRecord) :
    r ∈ listForUserInRange intakes userId startDate endDate ↔
      r ∈ intakes ∧ r.UserId = userId ∧ startDate ≤ r.date ∧ r.date ≤ endDate := by
  rw [(listForUserInRange_perm intakes userId startDate endDate).mem_iff, List.mem_filter]
  simp [and_assoc]

theorem listForUserInRange_sorted (intakes : List IntakeRecord) (userId : Nat)
    (startDate endDate : String) :
    (listForUserInRange intakes userId startDate endDate).Sorted dateTimeLe := by
  haveI : IsTotal IntakeRecord
      (fun a b => a.date < b.date ∨ (a.date = b.date ∧ a.time ≤ b.time)) :=
    ⟨dateTimeLe_total⟩
  haveI : IsTrans IntakeRecord
      (fun a b => a.date < b.date ∨ (a.date = b.date ∧ a.time ≤ b.time)) :=
    ⟨dateTimeLe_trans⟩
  exact List.sorted_insertionSort
    (fun a b : IntakeRecord => a.date < b.date ∨ (a.date = b.date ∧ a.time ≤ b.time)) _

/-- C26, as stated, fails for an end date that has the shape `YYYY-MM-DD` and names no
day: alice asks `GET /range/2024-02-01/2024-02-31` on a store where she has two records on
2024-02-10 and one on 2024-03-05. The ORM sends the text `Invalid date` as the end bound,
which is above every date as a string: the answer holds the record of 2024-03-05 as well,
whose date is not at or below the end date that was given. -/
theorem getRange_invalid_end_date_counterexample :
    dateRegexTest "2024-02-31" = true ∧
    (getRangeHandler sampleFallback alice (rangeRequest "2024-02-01" "2024-02-31")
        rangeDb).response
      = { status := 200,
          body := .records
            [{ id := 4, UserId := 1, amount := 200, date := "2024-02-10", time := "08:00:00" },
             { id := 2, UserId := 1, amount := 300, date := "2024-02-10", time := "18:30:00" },
             { id := 1, UserId := 1, amount := 250, date := "2024-03-05",
               time := "09:00:00" }] } ∧
    ¬ ("2024-03-05" ≤ "2024-02-31") := by
  have hstart : dateOnly sampleFallback "2024-02-01" = "2024-02-01" := by decide
  have hend : dateOnly sampleFallback "2024-02-31" = "Invalid date" := by decide
  refine ⟨by decide, ?_, ?_⟩
  · simp [getRangeHandler, rangeRequest, requestWith, hstart, hend, listForUserInRange,
      rangeDb, alice]
    decide
  · rw [String.le_iff_toList_le]
    decide

/-- C26 (amended): for bounds that are days of the calendar written `YYYY-MM-DD`,
`GET /range/:startDate/:endDate` answers 200 with exactly the records of the caller whose
date lies between the two bounds, both included (each such record once per stored row, no
record of another user), ordered by date and, within a date, by time, ascending, and
leaves the store as it is. Dates and times are compared as the store compares them, as
strings. For any bounds, the answer is the list that the store returns for the two values
that the ORM makes of the bounds, and that list has the same three properties with respect
to these values. -/
theorem listForUserInRange_exact_and_sorted (fallback : String → String) (user : User)
    (req : Request) (db : Db)
    (hstart : isCalendarDate req.startDate = true)
    (hend : isCalendarDate req.endDate = true) :
    (getRangeHandler fallback user req db).response
      = { status := 200,
          body := .records
            (listForUserInRange db.intakes user.id req.startDate req.endDate) } ∧
    (getRangeHandler fallback user req db).db = db ∧
    (listForUserInRange db.intakes user.id req.startDate req.endDate).Perm
      (db.intakes.filter (fun r =>
        r.UserId == user.id && decide (req.startDate ≤ r.date) &&
          decide (r.date ≤ req.endDate))) ∧
    (∀ r, r ∈ listForUserInRange db.intakes user.id req.startDate req.endDate ↔
      r ∈ db.intakes ∧ r.UserId = user.id ∧ req.startDate ≤ r.date ∧
        r.date ≤ req.endDate) ∧
    (listForUserInRange db.intakes user.id req.startDate req.endDate).Sorted dateTimeLe ∧
    (∀ other : Request,
      (getRangeHandler fallback user other db).response
        = { status := 200,
            body := .records
              (listForUserInRange db.intakes user.id (dateOnly fallback other.startDate)
                (dateOnly fallback other.endDate)) }) ∧
    (∀ (intakes : List IntakeRecord) (userId : Nat) (lower upper : String),
      (listForUserInRange intakes userId lower upper).Perm
        (intakes.filter (fun r =>
          r.UserId == userId && decide (lower ≤ r.date) && decide (r.date ≤ upper))) ∧
      (∀ r, r ∈ listForUserInRange intakes userId lower upper ↔
        r ∈ intakes ∧ r.UserId = userId ∧ lower ≤ r.date ∧ r.date ≤ upper) ∧
      (listForUserInRange intakes userId lower upper).Sorted dateTimeLe) := by
  refine ⟨?_, rfl, listForUserInRange_perm _ _ _ _, listForUserInRange_mem _ _ _ _,
    listForUserInRange_sorted _ _ _ _, fun _ => rfl, fun intakes userId lower upper =>
      ⟨listForUserInRange_perm _ _ _ _, listForUserInRange_mem _ _ _ _,
        listForUserInRange_sorted _ _ _ _⟩⟩
  unfold getRangeHandler
  rw [dateOnly_of_isCalendarDate fallback _ hstart, dateOnly_of_isCalendarDate fallback _ hend]

/-- C26 (amended), on the store with three records of alice and one of carol: for
February 2024 (2024-02-01 to 2024-02-29) alice gets her two records of 2024-02-10, the
earlier time first, and neither her record of March nor carol's record of February. -/
theorem listForUserInRange_exact_and_sorted_witness :
    isCalendarDate (rangeRequest "2024-02-01" "2024-02-29").startDate = true ∧
    isCalendarDate (rangeRequest "2024-02-01" "2024-02-29").endDate = true ∧
    (getRangeHandler sampleFallback alice (rangeRequest "2024-02-01" "2024-02-29")
        rangeDb).response
      = { status := 200,
          body := .records
            [{ id := 4, UserId := 1, amount := 200, date := "2024-02-10", time := "08:00:00" },
             { id := 2, UserId := 1, amount := 300, date := "2024-02-10",
               time := "18:30:00" }] } :=
  ⟨by decide, by decide,
    (listForUserInRange_exact_and_sorted sampleFallback alice
      (rangeRequest "2024-02-01" "2024-02-29") rangeDb (by decide) (by decide)).1.trans
      (by simp [rangeRequest, requestWith, listForUserInRange, rangeDb, alice]; decide)⟩

/-- The range query on bounds with one-digit month and day: when the library reads
`2024-3-1` and `2024-3-31` as the first and the last day of March 2024, alice gets her
record of 2024-03-05, although no date lies between these two texts as strings. -/
theorem getRange_one_digit_bounds_example :
    (getRangeHandler sampleFallback alice (rangeRequest "2024-3-1" "2024-3-31")
        rangeDb).response
      = { status := 200,
          body := .records
            [{ id := 1, UserId := 1, amount := 250, date := "2024-03-05",
               time := "09:00:00" }] } ∧
    listForUserInRange rangeDb.intakes 1 "2024-3-1" "2024-3-31" = [] := by
  have hstart : dateOnly sampleFallback "2024-3-1" = "2024-03-01" := by decide
  have hend : dateOnly sampleFallback "2024-3-31" = "2024-03-31" := by decide
  constructor
  · simp [getRangeHandler, rangeRequest, requestWith, hstart, hend, listForUserInRange,
      rangeDb, alice]
  · simp [listForUserInRange, rangeDb]

/-! ## Bounds between the statistics -/

theorem bestDay_date_none (es : List DayTotal) (h : (bestDay es).date = none) :
    es = [] ∨ ∀ d ∈ es, d.total ≤ 0 := by
  by_cases hex : ∃ d ∈ es, 0 < d.total
  · obtain ⟨pre, d, post, _, e2, _, _, _⟩ :=
      foldl_bestDayStep_first es { date := none, total := 0 } hex
    have hb : bestDay es = { date := some d.date, total := d.total } := e2
    rw [hb] at h
    simp at h
  · right
    intro d hd
    by_contra hc
    exact hex ⟨d, hd, not_le.mp hc⟩

/-- C27: for every non-empty list of per-day totals that are all positive,
`dailyAverage <= bestDay.total <= monthlyTotal`, and `bestDay.date` is the date of an
entry of the list; for every list, `bestDay.date` is null only when the list is empty or
no total exceeds 0. -/
theorem stats_average_le_best_le_total (ds : List DayTotal) (hne : ds ≠ [])
    (hpos : ∀ d ∈ ds, 0 < d.total) :
    dailyAverage ds ≤ ((bestDay ds).total : ℚ) ∧
    (bestDay ds).total ≤ monthlyTotal ds ∧
    (∃ d ∈ ds, (bestDay ds).date = some d.date) ∧
    (∀ es : List DayTotal, (bestDay es).date = none → es = [] ∨ ∀ d ∈ es, d.total ≤ 0) := by
  obtain ⟨d0, hd0⟩ := List.exists_mem_of_ne_nil ds hne
  have hex : ∃ d ∈ ds, (0 : Int) < d.total := ⟨d0, hd0, hpos d0 hd0⟩
  obtain ⟨pre, d, post, e1, e2, _, _, _⟩ :=
    foldl_bestDayStep_first ds { date := none, total := 0 } hex
  have hb : bestDay ds = { date := some d.date, total := d.total } := e2
  have hdmem : d ∈ ds := by
    rw [e1]
    simp
  have hmax : ∀ e ∈ ds, e.total ≤ d.total := by
    intro e he
    have := (foldl_bestDayStep_ge ds { date := none, total := 0 }).2 e he
    have hb2 : (ds.foldl bestDayStep { date := none, total := 0 }).total = d.total := by
      have : (bestDay ds).total = d.total := by rw [hb]
      exact this
    rw [hb2] at this
    exact this
  have hsum : monthlyTotal ds = (ds.map (fun x => x.total)).sum := by
    unfold monthlyTotal
    rw [foldl_add_total]
    simp
  have hbest_le : d.total ≤ monthlyTotal ds := by
    rw [hsum, e1]
    simp only [List.map_append, List.map_cons, List.sum_append, List.sum_cons]
    have h1 : 0 ≤ (pre.map (fun x => x.total)).sum := by
      apply List.sum_nonneg
      intro x hx
      obtain ⟨y, hy, rfl⟩ := List.mem_map.mp hx
      exact le_of_lt (hpos y (by rw [e1]; simp [hy]))
    have h2 : 0 ≤ (post.map (fun x => x.total)).sum := by
      apply List.sum_nonneg
      intro x hx
      obtain ⟨y, hy, rfl⟩ := List.mem_map.mp hx
      exact le_of_lt (hpos y (by rw [e1]; simp [hy]))
    omega
  have hlen : 0 < ds.length := List.length_pos.mpr hne
  have hsum_le : monthlyTotal ds ≤ (ds.length : Int) * d.total := by
    rw [hsum]
    have := List.sum_le_card_nsmul (ds.map (fun x => x.total)) d.total (by
      intro x hx
      obtain ⟨y, hy, rfl⟩ := List.mem_map.mp hx
      exact hmax y hy)
    simpa using this
  have hdiv : averageDivisor ds = ds.length := by
    unfold averageDivisor jsOr
    have : ds.length ≠ 0 := Nat.pos_iff_ne_zero.mp hlen
    simp [this]
  refine ⟨?_, ?_, ⟨d, hdmem, by rw [hb]⟩, bestDay_date_none⟩
  · unfold dailyAverage
    rw [hdiv, hb]
    have hpos_len : (0 : ℚ) < (ds.length : ℚ) := by exact_mod_cast hlen
    rw [div_le_iff₀ hpos_len]
    have : ((monthlyTotal ds : Int) : ℚ) ≤ ((ds.length : Int) : ℚ) * (d.total : ℚ) := by
      exact_mod_cast hsum_le
    simpa [mul_comm] using this
  · rw [hb]
    exact hbest_le

/-- C27, on the totals 300, 500, 500: the average 1300/3 is at most the best total 500,
which is at most the monthly total 1300. -/
theorem stats_average_le_best_le_total_witness :
    ([({ date := "2024-03-03", total := 300 } : DayTotal),
        { date := "2024-03-02", total := 500 }, { date := "2024-03-01", total := 500 }]
      ≠ []) ∧
    (bestDay [{ date := "2024-03-03", total := 300 },
        { date := "2024-03-02", total := 500 }, { date := "2024-03-01", total := 500 }]).total
      ≤ monthlyTotal [{ date := "2024-03-03", total := 300 },
        { date := "2024-03-02", total := 500 }, { date := "2024-03-01", total := 500 }] :=
  ⟨by decide,
    (stats_average_le_best_le_total
      [{ date := "2024-03-03", total := 300 }, { date := "2024-03-02", total := 500 },
        { date := "2024-03-01", total := 500 }] (by decide) (by decide)).2.1⟩

/-! ## The role of the token and the stored role -/

theorem adminRoute_of_auth_next (verify : String → VerifyResult)
    (handler : User → Request → Db → HandlerResult) (req : Request) (db : Db)
    (user : User) (ops : List StoreOp)
    (h : auth verify db.users req = (.next user, ops)) :
    adminRoute verify handler req db =
      match admin db.users user with
      | (.respond r, ops2) =>
        { response := r, db := db, storeOps := ops ++ ops2, handlerInvoked := false }
      | (.next user2, ops2) =>
        { response := (handler user2 req db).response, db := (handler user2 req db).db,
          storeOps := ops ++ ops2 ++ (handler user2 req db).storeOps,
          handlerInvoked := true } := by
  unfold adminRoute
  rw [h]

theorem protectedRoute_of_auth_next (verify : String → VerifyResult)
    (handler : User → Request → Db → HandlerResult) (req : Request) (db : Db)
    (user : User) (ops : List StoreOp)
    (h : auth verify db.users req = (.next user, ops)) :
    protectedRoute verify handler req db =
      { response := (handler user req db).response, db := (handler user req db).db,
        storeOps := ops ++ (handler user req db).storeOps, handlerInvoked := true } := by
  unfold protectedRoute
  rw [h]

/-- C28: on every admin-only operation, two requests that differ only in their token,
where both tokens verify and carry the same user id but any two role values, get the same
outcome (same response, same store, same statements sent): the decision reads the role of
the stored user with that id, both in `middleware/admin.js` and in the inline check on
`req.user.role`, and never the role of the token. With a stored role other than `admin`
both are answered 403; with the stored role `admin` both reach the handler. -/
theorem admin_decision_ignores_token_role (op : AdminOperation)
    (verify : String → VerifyResult)
    (handlers : AdminOperation → User → Request → Db → HandlerResult)
    (req1 req2 : Request) (db : Db) (token1 token2 : String) (id : Nat)
    (role1 role2 : String)
    (h1 : req1.header "x-auth-token" = some token1) (hne1 : token1 ≠ "")
    (h2 : req2.header "x-auth-token" = some token2) (hne2 : token2 ≠ "")
    (hv1 : verify token1 = .decoded (some { id := id, role := role1 }))
    (hv2 : verify token2 = .decoded (some { id := id, role := role2 }))
    (hsame : ∀ u, handlers op u req1 db = handlers op u req2 db) :
    (op.run verify handlers req1 db).response = (op.run verify handlers req2 db).response ∧
    (op.run verify handlers req1 db).db = (op.run verify handlers req2 db).db ∧
    (op.run verify handlers req1 db).storeOps = (op.run verify handlers req2 db).storeOps ∧
    (∀ stored, findByPk db.users id = some stored → stored.role ≠ "admin" →
      (op.run verify handlers req1 db).response.status = 403 ∧
      (op.run verify handlers req2 db).response.status = 403) ∧
    (∀ stored, findByPk db.users id = some stored → stored.role = "admin" →
      (op.run verify handlers req1 db).response
        = (handlers op (excludePassword stored) req1 db).response ∧
      (op.run verify handlers req2 db).response
        = (handlers op (excludePassword stored) req1 db).response) := by
  cases hfind : findByPk db.users id with
  | none =>
    have ha1 := auth_with_token verify db.users req1 token1 h1 hne1
    have ha2 := auth_with_token verify db.users req2 token2 h2 hne2
    rw [hv1] at ha1
    rw [hv2] at ha2
    simp only [hfind] at ha1 ha2
    unfold AdminOperation.run
    split_ifs
    · rw [adminRoute_of_auth_respond verify _ req1 db _ _ ha1,
        adminRoute_of_auth_respond verify _ req2 db _ _ ha2]
      simp
    · rw [protectedRoute_of_auth_respond verify _ req1 db _ _ ha1,
        protectedRoute_of_auth_respond verify _ req2 db _ _ ha2]
      simp
  | some stored =>
    have ha1 := auth_of_verified verify db.users req1 token1 { id := id, role := role1 }
      stored h1 hne1 hv1 hfind
    have ha2 := auth_of_verified verify db.users req2 token2 { id := id, role := role2 }
      stored h2 hne2 hv2 hfind
    have hadmin := admin_of_stored db.users { id := id, role := role1 } stored hfind
    dsimp only at ha1 ha2 hadmin
    unfold AdminOperation.run
    by_cases hrole : stored.role = "admin"
    · have hb : (stored.role != "admin") = false := by simp [hrole]
      have hb2 : ((excludePassword stored).role != "admin") = false := hb
      rw [hb] at hadmin
      simp only [Bool.false_eq_true, if_false] at hadmin
      split_ifs
      · rw [adminRoute_of_auth_next verify _ req1 db _ _ ha1,
          adminRoute_of_auth_next verify _ req2 db _ _ ha2]
        simp only [hadmin, hsame]
        simp [hrole]
      · rw [protectedRoute_of_auth_next verify _ req1 db _ _ ha1,
          protectedRoute_of_auth_next verify _ req2 db _ _ ha2]
        simp only [requireAdminInline, hb2, Bool.false_eq_true, if_false, hsame]
        simp [hrole]
    · have hb : (stored.role != "admin") = true := by simpa using hrole
      have hb2 : ((excludePassword stored).role != "admin") = true := hb
      rw [hb] at hadmin
      simp only [if_true] at hadmin
      split_ifs
      · rw [adminRoute_of_auth_next verify _ req1 db _ _ ha1,
          adminRoute_of_auth_next verify _ req2 db _ _ ha2]
        simp only [hadmin]
        simp [hrole]
      · rw [protectedRoute_of_auth_next verify _ req1 db _ _ ha1,
          protectedRoute_of_auth_next verify _ req2 db _ _ ha2]
        simp only [requireAdminInline, hb2, if_true]
        simp [hrole]

/-- C28, on the sample store: alice's id with a token that claims the role `admin` is
answered like alice's id with the token that claims `user`, here 403 on
`DELETE /users/:id`. -/
theorem admin_decision_ignores_token_role_witness :
    twoRoleVerify "token-A" = .decoded (some { id := 1, role := "user" }) ∧
    twoRoleVerify "token-A-admin" = .decoded (some { id := 1, role := "admin" }) ∧
    (AdminOperation.run .deleteUser twoRoleVerify (fun _ => sampleHandler)
        (requestWith "token-A" RequestBody.empty) sampleDb).response
      = (AdminOperation.run .deleteUser twoRoleVerify (fun _ => sampleHandler)
        (requestWith "token-A-admin" RequestBody.empty) sampleDb).response ∧
    (AdminOperation.run .deleteUser twoRoleVerify (fun _ => sampleHandler)
        (requestWith "token-A-admin" RequestBody.empty) sampleDb).response.status = 403 :=
  ⟨rfl, rfl,
    (admin_decision_ignores_token_role .deleteUser twoRoleVerify (fun _ => sampleHandler)
      (requestWith "token-A" RequestBody.empty)
      (requestWith "token-A-admin" RequestBody.empty) sampleDb "token-A" "token-A-admin" 1
      "user" "admin" rfl (by decide) rfl (by decide) rfl rfl (fun _ => rfl)).1,
    by decide⟩

/-! ## A daily goal of 0 -/

/-- C29, as stated, fails for a goal of 0 sent as the string `"0"`, which is what the
profile and registration forms send after the field was edited: the validator accepts it
as the integer 0, the string is truthy, and the stored goal becomes 0, both through
`PUT /users/me` and through `POST /auth/register`. -/
theorem zero_goal_string_is_stored_counterexample :
    isInt 0 (.str "0") = true ∧ integerOf (.str "0") = some 0 ∧
    (putMeHandler alice
        (requestWith "token-A" { RequestBody.empty with
          firstName := some "Alice", lastName := some "Smith", dailyWaterGoal := .str "0" })
        sampleDb).response.status = 200 ∧
    (putMeHandler alice
        (requestWith "token-A" { RequestBody.empty with
          firstName := some "Alice", lastName := some "Smith", dailyWaterGoal := .str "0" })
        sampleDb).db.users.map (fun u => (u.id, u.dailyWaterGoal)) = [(1, 0), (2, 2500)] ∧
    (registerHandler sampleIsEmail sampleHash sampleSign false
        (requestWith "" { bobRegistration with dailyWaterGoal := .str "0" })
        sampleDb).response.status = 200 ∧
    (registerHandler sampleIsEmail sampleHash sampleSign false
        (requestWith "" { bobRegistration with dailyWaterGoal := .str "0" })
        sampleDb).db.users.map (fun u => (u.username, u.dailyWaterGoal))
      = [("alice", 2000), ("carol", 2500), ("bob", 0)] := by
  decide

theorem createUser_zero_goal (isEmail : String → Bool) (hash : String → String)
    (body : RequestBody) (users : List User) (user : User)
    (h0 : body.dailyWaterGoal = .int 0)
    (h : createUser isEmail hash body users = .ok user) : user.dailyWaterGoal = 2000 := by
  unfold createUser at h
  rw [h0] at h
  simp only [JsonValue.truthy, bne_self_eq_false, Bool.false_eq_true, if_false] at h
  split_ifs at h
  injection h with h
  subst h
  rfl

/-- C29 (amended): a daily goal sent as the number 0 is not stored on the self-service
paths. A registration with `dailyWaterGoal: 0` that succeeds creates a user whose stored
goal is 2000; for `PUT /users/me` the number 0 passes the validator `isInt({ min: 0 })`
(no goal message among the validation errors) and the stored goal of every user, the
caller included, is the same afterwards. -/
theorem zero_goal_number_not_stored (isEmail : String → Bool) (hash : String → String)
    (sign : PayloadUser → String) (development : Bool) (req : Request) (db : Db)
    (h0 : req.body.dailyWaterGoal = .int 0) :
    ((registerHandler isEmail hash sign development req db).response.status = 200 →
      ∃ user : User,
        (registerHandler isEmail hash sign development req db).db
          = { db with users := db.users ++ [user] } ∧
        user.dailyWaterGoal = 2000) ∧
    isInt 0 req.body.dailyWaterGoal = true ∧
    "Daily water goal must be a positive number" ∉ putMeValidationErrors req.body ∧
    (∀ caller : User,
      List.Forall₂ (fun old new => new.dailyWaterGoal = old.dailyWaterGoal) db.users
        (putMeHandler caller req db).db.users) := by
  refine ⟨?_, ?_, ?_, ?_⟩
  · intro h
    obtain ⟨user, hc, hdb, _⟩ := registerHandler_ok isEmail hash sign development req db h
    exact ⟨user, hdb, createUser_zero_goal isEmail hash req.body db.users user h0 hc⟩
  · rw [h0]
    rfl
  · unfold putMeValidationErrors
    rw [h0]
    have hint : isInt 0 (.int 0) = true := rfl
    simp only [hint, if_true]
    cases req.body.gender <;> simp
  · intro caller
    by_cases h1 : putMeValidationErrors req.body ≠ []
    · have : (putMeHandler caller req db).db = db := by simp [putMeHandler, h1]
      rw [this, List.forall₂_same]
      intro u _
      rfl
    · by_cases h2 : updateModelFailures (req.body.firstName.getD "")
          (req.body.lastName.getD "") (truthyText req.body.middleName)
          (if req.body.dailyWaterGoal.truthy then some (integerOf req.body.dailyWaterGoal)
            else none) ≠ []
      · have : (putMeHandler caller req db).db = db := by
          simp only [putMeHandler]
          rw [if_neg h1, if_pos h2]
        rw [this, List.forall₂_same]
        intro u _
        rfl
      · have hdb : (putMeHandler caller req db).db.users =
            db.users.map (fun u =>
              if u.id == caller.id then
                { u with
                  firstName := req.body.firstName.getD "",
                  lastName := req.body.lastName.getD "",
                  middleName := truthyText req.body.middleName,
                  gender := (truthyText req.body.gender).getD u.gender }
              else u) := by
          simp only [putMeHandler]
          rw [if_neg h1, if_neg h2]
          have ht : req.body.dailyWaterGoal.truthy = false := by rw [h0]; rfl
          simp only [ht, Bool.false_eq_true, if_false]
          split_ifs <;> rfl
        rw [hdb, List.forall₂_map_right_iff, List.forall₂_same]
        intro u _
        split_ifs <;> rfl

/-- C29 (amended), on the sample store: alice sends the number 0 as goal with her names;
the update is answered 200 and her stored goal is still 2000. -/
theorem zero_goal_number_not_stored_witness :
    (requestWith "token-A" { RequestBody.empty with
      firstName := some "Alice", lastName := some "Smith",
      dailyWaterGoal := .int 0 }).body.dailyWaterGoal = .int 0 ∧
    (putMeHandler alice
        (requestWith "token-A" { RequestBody.empty with
          firstName := some "Alice", lastName := some "Smith", dailyWaterGoal := .int 0 })
        sampleDb).response.status = 200 ∧
    List.Forall₂ (fun old new => new.dailyWaterGoal = old.dailyWaterGoal) sampleDb.users
      (putMeHandler alice
        (requestWith "token-A" { RequestBody.empty with
          firstName := some "Alice", lastName := some "Smith", dailyWaterGoal := .int 0 })
        sampleDb).db.users :=
  ⟨rfl, by decide,
    (zero_goal_number_not_stored sampleIsEmail sampleHash sampleSign false
      (requestWith "token-A" { RequestBody.empty with
        firstName := some "Alice", lastName := some "Smith", dailyWaterGoal := .int 0 })
      sampleDb rfl).2.2.2 alice⟩

/-! ## The time sent by the admin panel -/

theorem hourMinute_append_seconds (t : String) (h : hourMinuteTest t = true) :
    timeRegexTest (t ++ ":00") = true := by
  unfold hourMinuteTest at h
  unfold timeRegexTest
  have happ : (t ++ ":00").toList = t.toList ++ [':', '0', '0'] := rfl
  rw [happ]
  generalize t.toList = cs at h
  rcases cs with _ | ⟨a, _ | ⟨b, _ | ⟨c, _ | ⟨d, _ | ⟨e, _ | ⟨f, rest⟩⟩⟩⟩⟩⟩ <;>
    simp at h
  simp only [List.cons_append, List.nil_append]
  simp [h]

theorem hourMinuteSecond_append_seconds (t : String) (h : timeRegexTest t = true) :
    timeRegexTest (t ++ ":00") = false := by
  unfold timeRegexTest at h ⊢
  have happ : (t ++ ":00").toList = t.toList ++ [':', '0', '0'] := rfl
  rw [happ]
  generalize t.toList = cs at h
  rcases cs with _ | ⟨a, _ | ⟨b, _ | ⟨c, _ | ⟨d, _ | ⟨e, _ | ⟨f, _ | ⟨g, _ | ⟨i, _ |
    ⟨j, rest⟩⟩⟩⟩⟩⟩⟩⟩⟩ <;> simp at h
  rfl

theorem handleSubmitRecord_time (form : RecordForm) (selectedUser : Option Nat)
    (selectedDate : String) (data : RequestBody)
    (h : handleSubmitRecord form selectedUser selectedDate = some data) :
    data.time = some (form.time ++ ":00") := by
  unfold handleSubmitRecord at h
  dsimp only at h
  split_ifs at h
  injection h with h
  rw [← h]

theorem putWaterAdminHandler_writes_time (user : User) (req : Request) (db : Db)
    (record : IntakeRecord) (t : String) (n : Int)
    (hfind : db.intakes.find? (fun r => some r.id == req.id) = some record)
    (htime : req.body.time = some t) (hamount : req.body.amount = .int n) (hn : 0 ≤ n) :
    (putWaterAdminHandler user req db).response
      = { status := 200, body := .record { record with amount := n, time := t } } ∧
    (putWaterAdminHandler user req db).db
      = { db with intakes := db.intakes.map (fun r =>
          if r.id == record.id then { r with amount := n, time := t } else r) } := by
  simp [putWaterAdminHandler, hfind, htime, hamount, minZeroCheck, hn, beforeSave]

/-- C30: the admin panel submits the time of the form with `:00` appended. For a form time
of shape `HH:MM` the submitted time has the shape `HH:MM:SS`. A record opened for edit
puts its stored time into the form, so when that time has the shape `HH:MM:SS` and is not
changed, the submitted time is the stored time followed by `:00`, which does not match
the `HH:MM:SS` pattern. `PUT /water/admin/:id` writes whatever time it is given into the
record (here with an amount that is a number `n >= 0`), without a pattern check, and the
`beforeSave` hook keeps a time string as it is. -/
theorem adminPanel_edit_appends_seconds :
    (∀ t : String, hourMinuteTest t = true → timeRegexTest (t ++ ":00") = true) ∧
    (∀ (form : RecordForm) (selectedUser : Option Nat) (selectedDate : String)
        (data : RequestBody),
      handleSubmitRecord form selectedUser selectedDate = some data →
        data.time = some (form.time ++ ":00")) ∧
    (∀ (record : IntakeRecord) (selectedUser : Option Nat) (selectedDate : String)
        (data : RequestBody),
      timeRegexTest record.time = true →
      handleSubmitRecord (handleEditRecord record) selectedUser selectedDate = some data →
        data.time = some (record.time ++ ":00") ∧
        timeRegexTest (record.time ++ ":00") = false) ∧
    (∀ (user : User) (req : Request) (db : Db) (record : IntakeRecord) (t : String)
        (n : Int),
      db.intakes.find? (fun r => some r.id == req.id) = some record →
      req.body.time = some t → req.body.amount = .int n → 0 ≤ n →
        (putWaterAdminHandler user req db).response
          = { status := 200, body := .record { record with amount := n, time := t } } ∧
        (putWaterAdminHandler user req db).db
          = { db with intakes := db.intakes.map (fun r =>
              if r.id == record.id then { r with amount := n, time := t } else r) }) ∧
    (∀ values : IntakeValues, (beforeSave values).time = values.time) := by
  refine ⟨hourMinute_append_seconds, handleSubmitRecord_time, ?_,
    putWaterAdminHandler_writes_time, ?_⟩
  · intro record selectedUser selectedDate data hshape hsubmit
    exact ⟨handleSubmitRecord_time _ _ _ _ hsubmit,
      hourMinuteSecond_append_seconds record.time hshape⟩
  · intro values
    simp [beforeSave]

/-- C30, on the sample record (time `10:00:00`): opening it for edit and saving submits
the time `10:00:00:00`, and the update by carol stores that time. -/
theorem adminPanel_edit_appends_seconds_witness :
    timeRegexTest sampleRecord.time = true ∧
    (handleSubmitRecord (handleEditRecord sampleRecord) (some 1) "2024-03-01").map
        (fun data => data.time) = some (some "10:00:00:00") ∧
    timeRegexTest (sampleRecord.time ++ ":00") = false ∧
    (putWaterAdminRoute sampleVerify
        (carolRequest 1
          ((handleSubmitRecord (handleEditRecord sampleRecord) (some 1) "2024-03-01").getD
            RequestBody.empty))
        sampleDb).db.intakes
      = [{ id := 1, UserId := 1, amount := 250, date := "2024-03-01",
           time := "10:00:00:00" }] :=
  ⟨by decide, by decide,
    (adminPanel_edit_appends_seconds.2.2.1 sampleRecord (some 1) "2024-03-01"
      { RequestBody.empty with
        userId := some 1, amount := .int 250, date := some "2024-03-01",
        time := some "10:00:00:00" } (by decide) (by decide)).2,
    by decide⟩

end WaterTracker
